import Mathlib

/-!
Verification of the AI pre-sales copilot pipeline (requirements extraction,
retrieval and ranking, estimation, statement-of-work assembly).

The Python services are shallowly embedded: pure string manipulation is
translated function-by-function, the external LLM provider and the vector
index are parameters of the models, machine floats are modelled as
rationals, and raised exceptions are modelled with `Except`.
-/

set_option maxRecDepth 8000

/-! ## Python string primitives

The services manipulate Python `str` values with `strip`, `startswith`,
`replace(..., 1)`, `find`, `rfind` and slicing.  They are modelled here on
`List Char`, faithful to CPython semantics for the fragment used.
-/

/-- The characters Python `str.strip()` removes. -/
def pyIsSpace (c : Char) : Bool :=
  c == ' ' || c == '\t' || c == '\n' || c == '\r' || c == '\x0b' || c == '\x0c'

/-- Strip characters satisfying `p` from both ends, as Python `str.strip`. -/
def pyStripWhile (p : Char → Bool) (cs : List Char) : List Char :=
  ((cs.dropWhile p).reverse.dropWhile p).reverse

/-- Python `text.strip()` on a string. -/
def pyStrip (s : String) : String :=
  String.mk (pyStripWhile pyIsSpace s.data)

/-- Python falsiness of a string (`not s` is true exactly for `""`). -/
def pyFalsyStr (s : String) : Bool :=
  s.data.isEmpty

/-- Python `s.replace(pat, "", 1)`: delete the first occurrence of `pat`. -/
def pyReplaceFirstEmpty : List Char → List Char → List Char
  | [], _ => []
  | c :: rest, pat =>
    if pat.isPrefixOf (c :: rest) then (c :: rest).drop pat.length
    else c :: pyReplaceFirstEmpty rest pat

/-- Python `s.find(ch)`: index of the first occurrence, if any. -/
def pyFindChar (cs : List Char) (ch : Char) : Option Nat :=
  cs.findIdx? (· == ch)

/-- Python `s.rfind(ch)`: index of the last occurrence, if any. -/
def pyRFindChar (cs : List Char) (ch : Char) : Option Nat :=
  (cs.reverse.findIdx? (· == ch)).map (fun i => cs.length - 1 - i)

/-- Python slice `s[a : b]` (with `0 ≤ a ≤ b`). -/
def pySlice (cs : List Char) (a b : Nat) : List Char :=
  (cs.drop a).take (b - a)

/-! ## JSON values and `json.loads`

Model output is parsed with Python `json.loads`.  JSON values are modelled
by `JsonValue`; numbers are rationals (floats in the source).  Object
members are kept in insertion order and a duplicated key overwrites the
earlier binding in place, as a Python `dict` does.
-/

inductive JsonValue where
  | null
  | bool (b : Bool)
  | num (q : ℚ)
  | str (s : String)
  | arr (elems : List JsonValue)
  | obj (fields : List (String × JsonValue))
deriving BEq

/-- Python `dict` insertion: overwrite in place or append. -/
def objInsert : List (String × JsonValue) → String → JsonValue → List (String × JsonValue)
  | [], k, v => [(k, v)]
  | (k0, v0) :: rest, k, v =>
    if k0 == k then (k0, v) :: rest else (k0, v0) :: objInsert rest k v

/-- Python `dict.get`: value of the first binding of `k`, if any. -/
def jsonGet (fields : List (String × JsonValue)) (k : String) : Option JsonValue :=
  (fields.find? (fun p => p.1 == k)).map (fun p => p.2)

/-- Key membership in an object field list (`k in d`). -/
def objHasKey (fields : List (String × JsonValue)) (k : String) : Bool :=
  fields.any (fun p => p.1 == k)

/-- Skip JSON whitespace, as the `json` module does between tokens. -/
def jsonWs (cs : List Char) : List Char :=
  cs.dropWhile (fun c => c == ' ' || c == '\t' || c == '\n' || c == '\r')

/-- Numeric value of a digit run. -/
def digitsVal (ds : List Char) : Nat :=
  ds.foldl (fun a c => a * 10 + (c.toNat - 48)) 0

/-- Value of a hexadecimal digit. -/
def hexDigitVal (c : Char) : Nat :=
  if c.isDigit then c.toNat - 48
  else if 'a' ≤ c && c ≤ 'f' then c.toNat - 87
  else if 'A' ≤ c && c ≤ 'F' then c.toNat - 55
  else 0

def isHexDigit (c : Char) : Bool :=
  c.isDigit || ('a' ≤ c && c ≤ 'f') || ('A' ≤ c && c ≤ 'F')

/-- Body of a JSON string after the opening quote (strict mode: raw control
characters are rejected; `\uXXXX` maps to the code point, surrogate pairs
are not combined — no input in this development uses them). -/
def parseJsonStringBody : Nat → List Char → List Char → Option (String × List Char)
  | 0, _, _ => none
  | fuel + 1, acc, cs =>
    match cs with
    | [] => none
    | c :: rest =>
      if c == '\x22' then some (String.mk acc.reverse, rest)
      else if c == '\x5c' then
        match rest with
        | [] => none
        | e :: rest2 =>
          if e == '\x22' then parseJsonStringBody fuel ('\x22' :: acc) rest2
          else if e == '\x5c' then parseJsonStringBody fuel ('\x5c' :: acc) rest2
          else if e == '/' then parseJsonStringBody fuel ('/' :: acc) rest2
          else if e == 'b' then parseJsonStringBody fuel ('\x08' :: acc) rest2
          else if e == 'f' then parseJsonStringBody fuel ('\x0c' :: acc) rest2
          else if e == 'n' then parseJsonStringBody fuel ('\n' :: acc) rest2
          else if e == 'r' then parseJsonStringBody fuel ('\r' :: acc) rest2
          else if e == 't' then parseJsonStringBody fuel ('\t' :: acc) rest2
          else if e == 'u' then
            match rest2 with
            | h1 :: h2 :: h3 :: h4 :: rest6 =>
              if isHexDigit h1 && isHexDigit h2 && isHexDigit h3 && isHexDigit h4 then
                let code := ((hexDigitVal h1 * 16 + hexDigitVal h2) * 16 + hexDigitVal h3) * 16
                  + hexDigitVal h4
                parseJsonStringBody fuel (Char.ofNat code :: acc) rest6
              else none
            | _ => none
          else none
      else if c.toNat < 32 then none
      else parseJsonStringBody fuel (c :: acc) rest

/-- Optional exponent part of a JSON number: `(sign * digits, rest)`. -/
def parseJsonExp (cs : List Char) : Option (Int × List Char) :=
  match cs with
  | [] => some (0, [])
  | c :: rest =>
    if c == 'e' || c == 'E' then
      let signAndRest : Int × List Char :=
        match rest with
        | d :: r2 => if d == '+' then (1, r2) else if d == '-' then (-1, r2) else (1, rest)
        | [] => (1, rest)
      let ds := signAndRest.2.takeWhile Char.isDigit
      if ds.isEmpty then none
      else some (signAndRest.1 * (digitsVal ds : Int), signAndRest.2.drop ds.length)
    else some (0, cs)

/-- `10 ^ n` on naturals, kept as a plain recursive definition so that the
kernel evaluates parsed numbers. -/
def natPow10 : Nat → Nat
  | 0 => 1
  | n + 1 => 10 * natPow10 n

/-- Assemble the rational value of a JSON number from its parts:
`signed-mantissa * 10 ^ (exponent - #fraction-digits)`. -/
def jsonNumVal (neg : Bool) (intPart fracPart : List Char) (expv : Int) : ℚ :=
  let mant : Int := (digitsVal (intPart ++ fracPart) : Int)
  let signed : Int := if neg then -mant else mant
  match expv - (fracPart.length : Int) with
  | Int.ofNat e => mkRat (signed * (natPow10 e : Int)) 1
  | Int.negSucc e => mkRat signed (natPow10 (e + 1))

/-- A JSON number literal (leading zeros rejected, as in the `json` module). -/
def parseJsonNumber (cs : List Char) : Option (JsonValue × List Char) :=
  let negAndRest : Bool × List Char :=
    match cs with
    | c :: rest => if c == '-' then (true, rest) else (false, cs)
    | [] => (false, cs)
  let cs1 := negAndRest.2
  let intPart := cs1.takeWhile Char.isDigit
  if intPart.isEmpty then none
  else if intPart.length > 1 && intPart.headD '0' == '0' then none
  else
    let cs2 := cs1.drop intPart.length
    let fracAndRest : Option (List Char × List Char) :=
      match cs2 with
      | c :: rest =>
        if c == '.' then
          let f := rest.takeWhile Char.isDigit
          if f.isEmpty then none else some (f, rest.drop f.length)
        else some ([], cs2)
      | [] => some ([], [])
    match fracAndRest with
    | none => none
    | some (fracPart, cs3) =>
      match parseJsonExp cs3 with
      | none => none
      | some (expv, cs4) =>
        some (JsonValue.num (jsonNumVal negAndRest.1 intPart fracPart expv), cs4)

mutual

/-- Recursive-descent JSON value, fuelled (fuel bounds recursion depth;
`json_loads` supplies enough fuel for its input). -/
def parseJsonValue : Nat → List Char → Option (JsonValue × List Char)
  | 0, _ => none
  | fuel + 1, cs =>
    let cs1 := jsonWs cs
    match cs1 with
    | [] => none
    | c :: rest =>
      if c == '\x7b' then parseJsonMembers fuel rest [] true
      else if c == '[' then parseJsonElems fuel rest [] true
      else if c == '\x22' then
        (parseJsonStringBody (rest.length + 1) [] rest).map
          (fun p => (JsonValue.str p.1, p.2))
      else if c == 't' then
        if ['r', 'u', 'e'].isPrefixOf rest then some (JsonValue.bool true, rest.drop 3)
        else none
      else if c == 'f' then
        if ['a', 'l', 's', 'e'].isPrefixOf rest then some (JsonValue.bool false, rest.drop 4)
        else none
      else if c == 'n' then
        if ['u', 'l', 'l'].isPrefixOf rest then some (JsonValue.null, rest.drop 3)
        else none
      else if c == '-' || c.isDigit then parseJsonNumber cs1
      else none

/-- Members of a JSON object after `\x7b`; `allowClose` permits an
immediately closing brace (empty object). -/
def parseJsonMembers : Nat → List Char → List (String × JsonValue) → Bool →
    Option (JsonValue × List Char)
  | 0, _, _, _ => none
  | fuel + 1, cs, acc, allowClose =>
    let cs1 := jsonWs cs
    match cs1 with
    | [] => none
    | c :: rest =>
      if c == '\x7d' && allowClose then some (JsonValue.obj acc, rest)
      else if c == '\x22' then
        match parseJsonStringBody (rest.length + 1) [] rest with
        | none => none
        | some (key, rest2) =>
          match jsonWs rest2 with
          | [] => none
          | c3 :: rest3 =>
            if c3 == ':' then
              match parseJsonValue fuel rest3 with
              | none => none
              | some (v, rest4) =>
                let acc2 := objInsert acc key v
                match jsonWs rest4 with
                | [] => none
                | c5 :: rest5 =>
                  if c5 == ',' then parseJsonMembers fuel rest5 acc2 false
                  else if c5 == '\x7d' then some (JsonValue.obj acc2, rest5)
                  else none
            else none
      else none

/-- Elements of a JSON array after `[`. -/
def parseJsonElems : Nat → List Char → List JsonValue → Bool →
    Option (JsonValue × List Char)
  | 0, _, _, _ => none
  | fuel + 1, cs, acc, allowClose =>
    let cs1 := jsonWs cs
    match cs1 with
    | [] => none
    | c :: rest =>
      if c == ']' && allowClose then some (JsonValue.arr acc.reverse, rest)
      else
        match parseJsonValue fuel cs1 with
        | none => none
        | some (v, rest2) =>
          match jsonWs rest2 with
          | [] => none
          | c3 :: rest3 =>
            if c3 == ',' then parseJsonElems fuel rest3 (v :: acc) false
            else if c3 == ']' then some (JsonValue.arr (v :: acc).reverse, rest3)
            else none

end

/-- Python `json.loads`: parse one JSON document, reject trailing data. -/
def json_loads (s : String) : Option JsonValue :=
  let cs := s.data
  match parseJsonValue (cs.length + 8) cs with
  | some (v, rest) => if (jsonWs rest).isEmpty then some v else none
  | none => none

example : json_loads "\x7b\"a\":1\x7d" = some (JsonValue.obj [("a", JsonValue.num 1)]) := by
  rfl

example : json_loads "hello" = none := by rfl

/-! ## Response Parser

`_strip_json_fences` and `_safe_parse_json` appear verbatim in
`sow_service.py`, `estimation_service.py` and `extraction_service.py`;
they are translated once here.
-/

/-- `_strip_json_fences` (sow_service.py lines 310–322): strip whitespace,
peel a code fence, then cut out the outermost `{ ... }` span. -/
def strip_json_fences (text : String) : Option String :=
  if pyFalsyStr text then none
  else
    let s1 := pyStripWhile pyIsSpace text.data
    let s2 :=
      if ['\x60', '\x60', '\x60'].isPrefixOf s1 then
        pyStripWhile pyIsSpace (pyReplaceFirstEmpty (pyStripWhile (· == '\x60') s1) "json".data)
      else s1
    match pyFindChar s2 '\x7b', pyRFindChar s2 '\x7d' with
    | some start, some stop =>
      if stop ≤ start then none
      else some (String.mk (pySlice s2 start (stop + 1)))
    | _, _ => none

/-- `_safe_parse_json` (sow_service.py lines 367–374): fence-strip, then
`json.loads`, with a parse failure mapped to `None`. -/
def safe_parse_json (text : String) : Option JsonValue :=
  match strip_json_fences text with
  | none => none
  | some cleaned => json_loads cleaned

/-- C8: the Response Parser recovers the embedded JSON object both from a
code-fenced response and from a response wrapped in prose: both sample
inputs of the claim parse to the object `{"a": 1}`. -/
theorem c8_response_parser_recovers_wrapped_json :
    safe_parse_json "\x60\x60\x60json\n\x7b\"a\":1\x7d\n\x60\x60\x60"
      = some (JsonValue.obj [("a", JsonValue.num 1)]) ∧
    safe_parse_json "Sure, here you go: \x7b\"a\":1\x7d Hope that helps!"
      = some (JsonValue.obj [("a", JsonValue.num 1)]) :=
  ⟨rfl, rfl⟩

/-! ## Error model

Raised Python exceptions are modelled as `Except PyError` results.
`VectorStoreEmptyError` subclasses `RuntimeError` in the source but is a
distinct class, caught and re-raised separately; it gets its own
constructor here.
-/

inductive PyError where
  | valueError (msg : String)
  | typeError (msg : String)
  | runtimeError (msg : String)
  | vectorStoreEmpty (msg : String)
deriving DecidableEq

/-! ## Retrieval & Ranking Engine (`retrieval_service.py`)

The embedding provider and the Chroma-backed index are external
collaborators; a `RetrievalEnv` carries their observable behaviour for one
call (the index vector count and the nearest-neighbour hits returned with
and without the `document_type` filter).
-/

/-- One nearest-neighbour chunk hit as `_format_results` sees it: node
metadata entries may be absent and the similarity score may be `None`. -/
structure ChunkHit where
  project_name : Option String
  score : Option ℚ
  tech_stack : Option String
  duration : Option String
  team_size : Option String
deriving DecidableEq

/-- Python falsiness of an optional string (`not value`). -/
def pyFalsyOptStr : Option String → Bool
  | none => true
  | some s => s.data.isEmpty

/-- Python `a or b` on an optional string against a default. -/
def pyOrDefault (o : Option String) (d : String) : String :=
  match o with
  | some s => if s.data.isEmpty then d else s
  | none => d

/-- Accumulator of `_format_results` grouping (lines 97–123): one entry per
project name, scores in arrival order, first non-falsy metadata kept. -/
structure ProjectGroup where
  project_name : String
  scores : List ℚ
  tech_stack : Option String
  duration : Option String
  team_size : Option String
deriving DecidableEq

/-- Merge one further hit into an existing project group: append its score
and fill each still-falsy metadata field. -/
def updateGroup (g : ProjectGroup) (h : ChunkHit) (sc : ℚ) : ProjectGroup :=
  { g with
    scores := g.scores ++ [sc]
    tech_stack := if pyFalsyOptStr g.tech_stack then h.tech_stack else g.tech_stack
    duration := if pyFalsyOptStr g.duration then h.duration else g.duration
    team_size := if pyFalsyOptStr g.team_size then h.team_size else g.team_size }

/-- Fold step of the grouping loop: a hit with score `None` is skipped; the
project name defaults to `"Unknown"`; groups keep first-seen order. -/
def addHit (groups : List ProjectGroup) (h : ChunkHit) : List ProjectGroup :=
  match h.score with
  | none => groups
  | some sc =>
    let name := pyOrDefault h.project_name "Unknown"
    if groups.any (fun g => g.project_name == name) then
      groups.map (fun g => if g.project_name == name then updateGroup g h sc else g)
    else
      groups ++ [{ project_name := name, scores := [sc], tech_stack := h.tech_stack,
                   duration := h.duration, team_size := h.team_size }]

/-- A project after score aggregation (lines 125–141). -/
structure ProjectAgg where
  project_name : String
  aggregated_score : ℚ
  tech_stack : Option String
  duration : Option String
  team_size : Option String
  number_of_matching_chunks : Nat
deriving DecidableEq

/-- A ranked project with its normalized confidence (lines 143–159). -/
structure ProjectMatch where
  project_name : String
  aggregated_score : ℚ
  tech_stack : Option String
  duration : Option String
  team_size : Option String
  number_of_matching_chunks : Nat
  confidence_score : ℚ
deriving DecidableEq

/-- `sorted(scores, reverse=True)`. -/
def sortScoresDesc (scores : List ℚ) : List ℚ :=
  scores.insertionSort (· ≥ ·)

/-- Lines 127–131: maximum chunk score plus `0.3 ×` the average of the top
three chunk scores (floats modelled as rationals; the default of `headD` is
never read, the grouping loop only creates a group together with its first
score). -/
def aggregate_score (scores : List ℚ) : ℚ :=
  let sorted := sortScoresDesc scores
  let max_score := sorted.headD 0
  let top3 := sorted.take 3
  let avg_top3 := top3.sum / (top3.length : ℚ)
  max_score + (3 / 10) * avg_top3

/-- Lines 125–141: aggregate every group. -/
def aggregate_groups (groups : List ProjectGroup) : List ProjectAgg :=
  groups.map (fun g =>
    { project_name := g.project_name
      aggregated_score := aggregate_score g.scores
      tech_stack := g.tech_stack
      duration := g.duration
      team_size := g.team_size
      number_of_matching_chunks := g.scores.length })

/-- `min` of a list as Python `min` on a non-empty list (default never read
on the empty list, which the source guards against). -/
def listMinD : List ℚ → ℚ
  | [] => 0
  | x :: xs => xs.foldl min x

/-- `max` of a list as Python `max` on a non-empty list. -/
def listMaxD : List ℚ → ℚ
  | [] => 0
  | x :: xs => xs.foldl max x

/-- Lines 146–153: min–max normalization of aggregated scores into
confidence scores, `1.0` everywhere when the range is zero. -/
def add_confidences (aggregated : List ProjectAgg) : List ProjectMatch :=
  let min_score := listMinD (aggregated.map (fun a => a.aggregated_score))
  let max_score := listMaxD (aggregated.map (fun a => a.aggregated_score))
  let denominator := max_score - min_score
  aggregated.map (fun a =>
    { project_name := a.project_name
      aggregated_score := a.aggregated_score
      tech_stack := a.tech_stack
      duration := a.duration
      team_size := a.team_size
      number_of_matching_chunks := a.number_of_matching_chunks
      confidence_score :=
        if denominator = 0 then 1
        else (a.aggregated_score - min_score) / denominator })

/-- `TOP_K` of the retrieval service. -/
def TOP_K : Nat := 5

/-- `_format_results` (lines 96–159): group, aggregate, normalize, sort by
aggregated score descending, truncate to `TOP_K`.  The Python sort key
`item.get("aggregated_score") or 0` equals the aggregated score itself
(`0.0` is falsy and maps to `0`). -/
def format_results (hits : List ChunkHit) : List ProjectMatch :=
  let aggregated := aggregate_groups (hits.foldl addHit [])
  if aggregated.isEmpty then []
  else
    ((add_confidences aggregated).insertionSort
      (fun a b => a.aggregated_score ≥ b.aggregated_score)).take TOP_K

/-- External behaviour of the embedding provider and vector index during
one `retrieve_similar_projects` call. -/
structure RetrievalEnv where
  index_count : Nat
  filtered_hits : List ChunkHit
  unfiltered_hits : List ChunkHit
  external_error : Option String
deriving DecidableEq

/-- `retrieve_similar_projects` (lines 23–93): empty-query guard, then
empty-index guard, then filtered retrieval with an unfiltered fallback;
external failures inside the `try` block are wrapped as a retrieval
`RuntimeError`. -/
def retrieve_similar_projects (env : RetrievalEnv) (rfp_summary : String)
    (document_type : Option String) : Except PyError (List ProjectMatch) :=
  if pyFalsyStr rfp_summary || pyFalsyStr (pyStrip rfp_summary) then
    Except.error (PyError.valueError "Query cannot be empty")
  else if env.index_count == 0 then
    Except.error
      (PyError.vectorStoreEmpty "Vector store is empty. Ingest documents before querying.")
  else
    match env.external_error with
    | some msg =>
      Except.error (PyError.runtimeError ("Failed to retrieve similar projects: " ++ msg))
    | none =>
      let useFilter :=
        match document_type with
        | some dt => !(pyFalsyStr dt)
        | none => false
      let results :=
        if useFilter then
          if env.filtered_hits.isEmpty then env.unfiltered_hits else env.filtered_hits
        else env.unfiltered_hits
      if results.isEmpty then Except.ok []
      else Except.ok (format_results results)

/-- Discriminator: did the call fail with the empty-index condition? -/
def isVectorStoreEmptyResult : Except PyError (List ProjectMatch) → Bool
  | Except.error (PyError.vectorStoreEmpty _) => true
  | _ => false

/-! ## List min/max facts used by the normalization proofs -/

theorem foldl_min_le_init (xs : List ℚ) (a : ℚ) : xs.foldl min a ≤ a := by
  induction xs generalizing a with
  | nil => simp
  | cons x xs ih => exact le_trans (ih (min a x)) (min_le_left a x)

theorem foldl_min_le_mem (xs : List ℚ) (a : ℚ) {x : ℚ} (hx : x ∈ xs) :
    xs.foldl min a ≤ x := by
  induction xs generalizing a with
  | nil => cases hx
  | cons y ys ih =>
    rcases List.mem_cons.mp hx with rfl | hmem
    · exact le_trans (foldl_min_le_init ys (min a x)) (min_le_right a x)
    · exact ih (min a y) hmem

theorem init_le_foldl_max (xs : List ℚ) (a : ℚ) : a ≤ xs.foldl max a := by
  induction xs generalizing a with
  | nil => simp
  | cons x xs ih => exact le_trans (le_max_left a x) (ih (max a x))

theorem mem_le_foldl_max (xs : List ℚ) (a : ℚ) {x : ℚ} (hx : x ∈ xs) :
    x ≤ xs.foldl max a := by
  induction xs generalizing a with
  | nil => cases hx
  | cons y ys ih =>
    rcases List.mem_cons.mp hx with rfl | hmem
    · exact le_trans (le_max_right a x) (init_le_foldl_max ys (max a x))
    · exact ih (max a y) hmem

theorem foldl_min_mem (xs : List ℚ) (a : ℚ) : xs.foldl min a ∈ a :: xs := by
  induction xs generalizing a with
  | nil => simp
  | cons x xs ih =>
    simp only [List.foldl_cons]
    have h := ih (min a x)
    rcases List.mem_cons.mp h with heq | hmem
    · rw [heq]
      rcases min_choice a x with h1 | h1 <;> rw [h1] <;> simp
    · simp [hmem]

theorem foldl_max_mem (xs : List ℚ) (a : ℚ) : xs.foldl max a ∈ a :: xs := by
  induction xs generalizing a with
  | nil => simp
  | cons x xs ih =>
    simp only [List.foldl_cons]
    have h := ih (max a x)
    rcases List.mem_cons.mp h with heq | hmem
    · rw [heq]
      rcases max_choice a x with h1 | h1 <;> rw [h1] <;> simp
    · simp [hmem]

theorem listMinD_le {l : List ℚ} {x : ℚ} (hx : x ∈ l) : listMinD l ≤ x := by
  cases l with
  | nil => cases hx
  | cons y ys =>
    rcases List.mem_cons.mp hx with rfl | hmem
    · exact foldl_min_le_init ys x
    · exact foldl_min_le_mem ys y hmem

theorem le_listMaxD {l : List ℚ} {x : ℚ} (hx : x ∈ l) : x ≤ listMaxD l := by
  cases l with
  | nil => cases hx
  | cons y ys =>
    rcases List.mem_cons.mp hx with rfl | hmem
    · exact init_le_foldl_max ys x
    · exact mem_le_foldl_max ys y hmem

theorem listMinD_mem {l : List ℚ} (h : l ≠ []) : listMinD l ∈ l := by
  cases l with
  | nil => exact absurd rfl h
  | cons y ys => exact foldl_min_mem ys y

theorem listMaxD_mem {l : List ℚ} (h : l ≠ []) : listMaxD l ∈ l := by
  cases l with
  | nil => exact absurd rfl h
  | cons y ys => exact foldl_max_mem ys y

/-- On a descending sort of a non-empty list, the head is the list max. -/
theorem headD_sortScoresDesc {scores : List ℚ} (h : scores ≠ []) :
    (sortScoresDesc scores).headD 0 = listMaxD scores := by
  have hperm : List.Perm (sortScoresDesc scores) scores :=
    List.perm_insertionSort (· ≥ ·) scores
  have hsorted : List.Sorted (· ≥ ·) (sortScoresDesc scores) :=
    List.sorted_insertionSort (· ≥ ·) scores
  cases hs : sortScoresDesc scores with
  | nil =>
    exfalso
    have hlen := hperm.length_eq
    rw [hs] at hlen
    exact h (List.length_eq_zero.mp hlen.symm)
  | cons a t =>
    rw [hs] at hperm hsorted
    have hmem : ∀ x ∈ scores, x ≤ a := by
      intro x hx
      rcases List.mem_cons.mp (hperm.mem_iff.mpr hx) with rfl | hx3
      · exact le_refl x
      · exact (List.sorted_cons.mp hsorted).1 x hx3
    have ha : a ∈ scores := hperm.mem_iff.mp (List.mem_cons_self a t)
    simp only [List.headD_cons]
    exact le_antisymm (le_listMaxD ha) (hmem _ (listMaxD_mem h))

/-- C5: for every project group with a non-empty chunk-score list, the
aggregated score equals the maximum chunk score plus `0.3` times the
average of the top `min(3, n)` chunk scores. -/
theorem c5_aggregated_score_formula (scores : List ℚ) (h : scores ≠ []) :
    aggregate_score scores
      = listMaxD scores
        + (3 / 10) * (((sortScoresDesc scores).take 3).sum
            / ((min 3 scores.length : ℕ) : ℚ)) := by
  have hlensort : (sortScoresDesc scores).length = scores.length :=
    (List.perm_insertionSort (· ≥ ·) scores).length_eq
  simp only [aggregate_score]
  rw [headD_sortScoresDesc h, List.length_take, hlensort]

/-- C5 witness: the formula instantiated at the concrete score list `[1, 2]`. -/
theorem c5_aggregated_score_formula_witness :
    aggregate_score [(1 : ℚ), 2]
      = listMaxD [(1 : ℚ), 2]
        + (3 / 10) * (((sortScoresDesc [(1 : ℚ), 2]).take 3).sum
            / ((min 3 ([(1 : ℚ), 2]).length : ℕ) : ℚ)) :=
  c5_aggregated_score_formula [(1 : ℚ), 2] (by simp)

/-- C4: in every non-empty aggregated result set, every computed confidence
score lies in `[0, 1]`, some project attaining the maximum aggregated score
has confidence exactly `1`, and when all aggregated scores coincide every
confidence score is exactly `1`. -/
theorem c4_confidence_scores_normalized (aggregated : List ProjectAgg)
    (h : aggregated ≠ []) :
    (∀ m ∈ add_confidences aggregated,
        0 ≤ m.confidence_score ∧ m.confidence_score ≤ 1) ∧
    (∃ m ∈ add_confidences aggregated,
        (∀ m2 ∈ add_confidences aggregated,
          m2.aggregated_score ≤ m.aggregated_score) ∧
        m.confidence_score = 1) ∧
    ((∀ m1 ∈ aggregated, ∀ m2 ∈ aggregated,
        m1.aggregated_score = m2.aggregated_score) →
      ∀ m ∈ add_confidences aggregated, m.confidence_score = 1) := by
  have hmap : aggregated.map (fun a => a.aggregated_score) ≠ [] := by
    intro hcontra
    exact h (List.map_eq_nil_iff.mp hcontra)
  set minS := listMinD (aggregated.map (fun a => a.aggregated_score)) with hminS
  set maxS := listMaxD (aggregated.map (fun a => a.aggregated_score)) with hmaxS
  have hscore_le : ∀ a ∈ aggregated, a.aggregated_score ≤ maxS := by
    intro a ha
    exact le_listMaxD (List.mem_map_of_mem _ ha)
  have hscore_ge : ∀ a ∈ aggregated, minS ≤ a.aggregated_score := by
    intro a ha
    exact listMinD_le (List.mem_map_of_mem _ ha)
  have hminmax : minS ≤ maxS := by
    obtain ⟨a, ha, haeq⟩ := List.mem_map.mp (listMaxD_mem hmap)
    calc minS ≤ a.aggregated_score := hscore_ge a ha
    _ = maxS := haeq
  refine ⟨?_, ?_, ?_⟩
  · intro m hm
    obtain ⟨a, ha, rfl⟩ := List.mem_map.mp hm
    simp only
    by_cases hd : maxS - minS = 0
    · simp [hd]
    · have hdpos : 0 < maxS - minS := lt_of_le_of_ne (by linarith) (Ne.symm hd)
      rw [if_neg hd]
      constructor
      · exact div_nonneg (by linarith [hscore_ge a ha]) (le_of_lt hdpos)
      · exact div_le_one_of_le₀ (by linarith [hscore_le a ha]) (le_of_lt hdpos)
  · obtain ⟨a0, ha0, ha0eq⟩ := List.mem_map.mp (listMaxD_mem hmap)
    refine ⟨_, List.mem_map_of_mem _ ha0, ?_, ?_⟩
    · intro m2 hm2
      obtain ⟨a2, ha2, rfl⟩ := List.mem_map.mp hm2
      simpa using le_trans (hscore_le a2 ha2) (le_of_eq ha0eq.symm)
    · simp only
      by_cases hd : maxS - minS = 0
      · simp [hd]
      · rw [if_neg hd, ha0eq]
        exact div_self hd
  · intro hall m hm
    obtain ⟨a, ha, rfl⟩ := List.mem_map.mp hm
    have hdz : maxS - minS = 0 := by
      obtain ⟨aM, haM, haMeq⟩ := List.mem_map.mp (listMaxD_mem hmap)
      obtain ⟨am, ham, hameq⟩ := List.mem_map.mp (listMinD_mem hmap)
      have := hall aM haM am ham
      rw [haMeq, hameq] at this
      linarith
    simp [hdz]

/-- Concrete two-project aggregated set used by the C4 witness. -/
def c4SampleAggs : List ProjectAgg :=
  [{ project_name := "A", aggregated_score := 1, tech_stack := none,
     duration := none, team_size := none, number_of_matching_chunks := 1 },
   { project_name := "B", aggregated_score := 2, tech_stack := none,
     duration := none, team_size := none, number_of_matching_chunks := 1 }]

/-- C4 witness: the normalization properties at a concrete two-project
aggregated set. -/
theorem c4_confidence_scores_normalized_witness :
    (∀ m ∈ add_confidences c4SampleAggs,
        0 ≤ m.confidence_score ∧ m.confidence_score ≤ 1) ∧
    (∃ m ∈ add_confidences c4SampleAggs,
        (∀ m2 ∈ add_confidences c4SampleAggs,
          m2.aggregated_score ≤ m.aggregated_score) ∧
        m.confidence_score = 1) ∧
    ((∀ m1 ∈ c4SampleAggs, ∀ m2 ∈ c4SampleAggs,
        m1.aggregated_score = m2.aggregated_score) →
      ∀ m ∈ add_confidences c4SampleAggs, m.confidence_score = 1) :=
  c4_confidence_scores_normalized c4SampleAggs (by simp [c4SampleAggs])

/-! ## C3: empty-index versus invalid-input ordering -/

/-- A string that is falsy (empty) stays falsy after `strip()`. -/
theorem pyFalsyStr_strip_of_falsy {q : String} (h : pyFalsyStr q = true) :
    pyFalsyStr (pyStrip q) = true := by
  have hdata : q.data = [] := List.isEmpty_iff.mp h
  simp [pyStrip, pyStripWhile, pyFalsyStr, hdata]

/-- C3 counterexample: with an empty query and a zero-vector index, the call
fails with the invalid-input `ValueError`, not with the empty-index
condition, refuting "regardless of query content". -/
theorem c3_empty_query_beats_empty_index_counterexample :
    retrieve_similar_projects ⟨0, [], [], none⟩ "" none
        = Except.error (PyError.valueError "Query cannot be empty") ∧
    isVectorStoreEmptyResult (retrieve_similar_projects ⟨0, [], [], none⟩ "" none)
        = false :=
  ⟨rfl, rfl⟩

/-- C3 amended: for every query that is non-empty after trimming, retrieval
on a zero-vector index fails with the empty-index `VectorStoreEmptyError`
(a condition distinct from the invalid-input `ValueError`), regardless of
filter and of the index contents; queries that are empty after trimming
fail with the invalid-input error first. -/
theorem c3_empty_index_distinct_condition (env : RetrievalEnv) (q : String)
    (dt : Option String) (hq : pyFalsyStr (pyStrip q) = false)
    (hc : env.index_count = 0) :
    retrieve_similar_projects env q dt
        = Except.error (PyError.vectorStoreEmpty
            "Vector store is empty. Ingest documents before querying.") ∧
    (∀ m, PyError.vectorStoreEmpty
        "Vector store is empty. Ingest documents before querying."
          ≠ PyError.valueError m) := by
  have hq0 : pyFalsyStr q = false := by
    cases hfq : pyFalsyStr q with
    | false => rfl
    | true => rw [pyFalsyStr_strip_of_falsy hfq] at hq; cases hq
  constructor
  · unfold retrieve_similar_projects
    rw [hq0, hq, hc]
    simp
  · intro m
    exact fun hcontra => PyError.noConfusion hcontra

/-- C3 amended witness: the empty-index failure at the concrete query
`"cloud migration"` on a zero-vector index. -/
theorem c3_empty_index_distinct_condition_witness :
    retrieve_similar_projects ⟨0, [], [], none⟩ "cloud migration" none
        = Except.error (PyError.vectorStoreEmpty
            "Vector store is empty. Ingest documents before querying.") ∧
    (∀ m, PyError.vectorStoreEmpty
        "Vector store is empty. Ingest documents before querying."
          ≠ PyError.valueError m) :=
  c3_empty_index_distinct_condition ⟨0, [], [], none⟩ "cloud migration" none rfl rfl

/-! ## C2: the statement-of-work retrieval call site

`sow_service.py` line 31 invokes
`retrieve_similar_projects(query_text, document_type=None, top_k=SOW_TOP_K)`
while `retrieval_service.py` declares
`retrieve_similar_projects(rfp_summary, document_type=None)`.  CPython
argument binding is modelled below; binding a keyword that is not a
declared parameter raises `TypeError` before the function body runs.
-/

/-- CPython positional/keyword argument binding against a parameter list
(no `*args`/`**kwargs`, which the service functions do not use): report the
first binding failure, in the CPython checking order. -/
def pyBindCall (params : List String) (numPositional : Nat) (kwargs : List String) :
    Except PyError Unit :=
  if params.length < numPositional then
    Except.error (PyError.typeError "too many positional arguments")
  else
    match kwargs.find? (fun k => !(params.contains k)) with
    | some k =>
      Except.error (PyError.typeError ("got an unexpected keyword argument " ++ k))
    | none =>
      match kwargs.find? (fun k => (params.take numPositional).contains k) with
      | some k =>
        Except.error (PyError.typeError ("got multiple values for argument " ++ k))
      | none => Except.ok ()

/-- The declared parameters of `retrieve_similar_projects`
(retrieval_service.py lines 23–26). -/
def retrieve_similar_projects_params : List String :=
  ["rfp_summary", "document_type"]

/-- The keyword names passed at the SOW retrieval call site
(sow_service.py line 31), after the single positional `query_text`. -/
def sow_retrieval_call_kwargs : List String :=
  ["document_type", "top_k"]

/-- `SOW_TOP_K` (sow_service.py line 15). -/
def SOW_TOP_K : Nat := 12

/-- C2: the SOW context-preparation retrieval call never succeeds — the
call site passes the keyword `top_k` (with value `SOW_TOP_K = 12`), which
`retrieve_similar_projects` does not declare, so CPython raises `TypeError`
before any retrieval happens. -/
theorem c2_sow_retrieval_call_raises_type_error :
    pyBindCall retrieve_similar_projects_params 1 sow_retrieval_call_kwargs
        = Except.error (PyError.typeError "got an unexpected keyword argument top_k")
      ∧ SOW_TOP_K = 12 :=
  ⟨rfl, rfl⟩

/-! ## Multi-Stage Document Assembler (`sow_service.py`)

The provider (`BedrockClient.generate`) either returns text or raises; it
is modelled per call occasion: one index call, then per processed section
an attempt-0 call and, on parse failure, an attempt-1 retry call.

The retrieval call at line 31 passes the undeclared keyword `top_k`, so
its argument binding (`pyBindCall` above) raises `TypeError` before the
retrieval body runs; the full-function model below therefore includes
that binding step ahead of the provider calls.  Its successful-binding
continuation (lines 33–240) is kept so the section-loop protocol can be
stated and proved of the loop itself (`run_sow_sections`), with the
retrieved context abstracted away there — the context only feeds prompt
text and log lines, never the control flow of index parsing, merging or
validation.

After the merge loop the source calls `_validate_sow_dict(merged)`, which
returns any `dict` argument unchanged (lines 259–263); `merged` is always
a `dict`, so the merged document is returned directly and the
whole-document correction path (lines 206–240) cannot be reached.
-/

/-- Outcome of one provider call: generated text, or a raised error. -/
inductive GenResult where
  | ok (text : String)
  | raises (msg : String)
deriving DecidableEq

/-- Is the call outcome a returned text? -/
def GenResult.isOk : GenResult → Bool
  | GenResult.ok _ => true
  | GenResult.raises _ => false

/-- Provider behaviour across one assembler run: the index call and the
section calls, addressed by section position and attempt (0 or 1). -/
structure SowProvider where
  indexCall : GenResult
  sectionCall : Nat → Nat → GenResult

/-- `MAX_SECTIONS` (sow_service.py line 18). -/
def MAX_SECTIONS : Nat := 10

/-- `MAX_CONTEXT_CHARS` (line 16). -/
def MAX_CONTEXT_CHARS : Nat := 12000

/-- `SECTION_CONTEXT_CHARS` (line 17). -/
def SECTION_CONTEXT_CHARS : Nat := 8000

/-- `_truncate_context` (lines 303–307): cut to `max_chars`, then `rstrip`. -/
def truncate_context (context : String) (max_chars : Nat) : String :=
  if context.data.length ≤ max_chars then context
  else String.mk ((context.data.take max_chars).reverse.dropWhile pyIsSpace).reverse

/-- `_default_sections` (lines 377–395): the fixed fallback ordering. -/
def default_sections : List String :=
  ["title", "date", "version", "provider", "client", "executive_summary",
   "confidentiality", "business_value", "definitions", "scope_of_services",
   "service_delivery", "resource_profiles", "fees", "expenses",
   "change_management", "acceptance_and_approvals"]

/-- The inner skeleton of `_empty_sow_document` (lines 398–439). -/
def sow_skeleton_fields : List (String × JsonValue) :=
  [("title", JsonValue.str ""),
   ("date", JsonValue.str ""),
   ("version", JsonValue.str ""),
   ("provider", JsonValue.str ""),
   ("client", JsonValue.str ""),
   ("executive_summary", JsonValue.obj
     [("purpose", JsonValue.str ""), ("methodology", JsonValue.str ""),
      ("key_domains", JsonValue.arr []), ("art_of_possible", JsonValue.str "")]),
   ("confidentiality", JsonValue.obj [("provisions", JsonValue.arr [])]),
   ("business_value", JsonValue.obj
     [("value_opportunities", JsonValue.arr []),
      ("alignment_with_goals", JsonValue.arr [])]),
   ("definitions", JsonValue.obj
     [("Scope", JsonValue.str ""), ("Deliverable", JsonValue.str ""),
      ("Objectives", JsonValue.str ""), ("Project Resource", JsonValue.str ""),
      ("Success Criteria", JsonValue.str ""), ("Exclusions", JsonValue.str "")]),
   ("scope_of_services", JsonValue.obj
     [("activities", JsonValue.arr []), ("deliverables_in_scope", JsonValue.arr []),
      ("out_of_scope", JsonValue.arr []),
      ("statement_of_understanding", JsonValue.arr []),
      ("assumptions", JsonValue.arr []), ("design_considerations", JsonValue.arr []),
      ("customer_responsibilities", JsonValue.arr []),
      ("project_resumption_charge", JsonValue.obj
        [("description", JsonValue.str "")])]),
   ("service_delivery", JsonValue.obj [("delivery_methodology", JsonValue.str "")]),
   ("resource_profiles", JsonValue.obj
     [("roles", JsonValue.arr []), ("resource_allocation", JsonValue.str "")]),
   ("fees", JsonValue.obj
     [("estimated_duration_weeks", JsonValue.num 0),
      ("invoicing_schedule", JsonValue.arr []), ("notes", JsonValue.arr [])]),
   ("expenses", JsonValue.obj [("reimbursed", JsonValue.arr [])]),
   ("change_management", JsonValue.obj [("requirement", JsonValue.str "")]),
   ("acceptance_and_approvals", JsonValue.obj
     [("terms", JsonValue.arr []), ("signature_blocks", JsonValue.arr [])])]

/-- `_empty_sow_document`: the schema-shaped skeleton. -/
def empty_sow_document : JsonValue :=
  JsonValue.obj [("document", JsonValue.obj sow_skeleton_fields)]

/-- Replace the value bound to `k`, keeping its position (`doc[key] = value`
on an existing key). -/
def assocReplace : List (String × JsonValue) → String → JsonValue → List (String × JsonValue)
  | [], _, _ => []
  | (k0, v0) :: rest, k, v =>
    if k0 == k then (k0, v) :: rest else (k0, v0) :: assocReplace rest k v

/-- One iteration of the `_merge_section` loop:
`if key in doc: doc[key] = value`. -/
def mergeStep (acc : List (String × JsonValue)) (kv : String × JsonValue) :
    List (String × JsonValue) :=
  if objHasKey acc kv.1 then assocReplace acc kv.1 kv.2 else acc

/-- `_merge_section` (lines 442–450): write every payload entry whose key
already exists in the inner document; ignore everything else. -/
def merge_section (target : JsonValue) (section_payload : JsonValue) : JsonValue :=
  match section_payload with
  | JsonValue.obj pfields =>
    match target with
    | JsonValue.obj tfields =>
      match jsonGet tfields "document" with
      | some (JsonValue.obj dfields) =>
        let newdoc := pfields.foldl mergeStep dfields
        JsonValue.obj (assocReplace tfields "document" (JsonValue.obj newdoc))
      | _ => target
    | _ => target
  | _ => target

/-- Python `str()` of a parsed JSON value, used only to pass a section name
into prompt text (line 92); the rendering of non-string values is
approximate and observably irrelevant (prompts are provider inputs, which
the model abstracts). -/
def jsonToPyStr : JsonValue → String
  | JsonValue.str s => s
  | JsonValue.num q => toString q
  | JsonValue.bool b => if b then "True" else "False"
  | JsonValue.null => "None"
  | JsonValue.arr _ => "[...]"
  | JsonValue.obj _ => "(object)"

/-- Lines 72–77: the section list from the parsed index payload, with the
fixed default ordering as fallback when it is missing, non-list or empty. -/
def sections_from_index (index_data : JsonValue) : List String :=
  let raw :=
    match index_data with
    | JsonValue.obj fs => jsonGet fs "sections"
    | _ => none
  match raw with
  | some (JsonValue.arr xs) =>
    if xs.isEmpty then default_sections else xs.map jsonToPyStr
  | _ => default_sections

/-- Lines 78–80: cap the section list at `MAX_SECTIONS`. -/
def capped_sections (index_data : JsonValue) : List String :=
  let sections := sections_from_index index_data
  if sections.length > MAX_SECTIONS then sections.take MAX_SECTIONS else sections

/-- The section-generation loop (lines 85–155): one call per section, one
retry on parse failure, skip on repeated failure, merge on success; a
raised provider error propagates wrapped as "SOW section generation
failed". -/
def run_sow_sections (p : SowProvider) : Nat → JsonValue → List String →
    Except PyError JsonValue
  | _, doc, [] => Except.ok doc
  | pos, doc, _ :: rest =>
    match p.sectionCall pos 0 with
    | GenResult.raises _ =>
      Except.error (PyError.runtimeError "SOW section generation failed")
    | GenResult.ok r1 =>
      match safe_parse_json r1 with
      | some payload => run_sow_sections p (pos + 1) (merge_section doc payload) rest
      | none =>
        match p.sectionCall pos 1 with
        | GenResult.raises _ =>
          Except.error (PyError.runtimeError "SOW section generation failed")
        | GenResult.ok r2 =>
          match safe_parse_json r2 with
          | some payload =>
            run_sow_sections p (pos + 1) (merge_section doc payload) rest
          | none => run_sow_sections p (pos + 1) doc rest

/-- The section list planned from an index-call response (lines 64–80). -/
def sow_planned_sections (index_response : String) : List String :=
  capped_sections ((safe_parse_json index_response).getD (JsonValue.obj []))

/-- `generate_statement_of_work` (lines 21–240): the empty-requirements
guard (lines 22–23); the line-31 retrieval call, whose argument binding
raises `TypeError` because of the undeclared `top_k` keyword (see
`c2_sow_retrieval_call_raises_type_error`); then — in the binding-success
branch, which that call site can never reach — the index call with its
wrapped failure (lines 58–61), index parsing with `{}` fallback (line 64),
section planning, and the section loop, after which the merged document is
returned (see the section comment: `_validate_sow_dict` is the identity on
dicts and the correction path is unreachable). -/
def generate_statement_of_work_model (requirements : List (String × JsonValue))
    (p : SowProvider) : Except PyError JsonValue :=
  if requirements.isEmpty then
    Except.error (PyError.valueError "structured_requirements must be provided")
  else
    match pyBindCall retrieve_similar_projects_params 1 sow_retrieval_call_kwargs with
    | Except.error e => Except.error e
    | Except.ok _ =>
      match p.indexCall with
      | GenResult.raises _ =>
        Except.error (PyError.runtimeError "SOW index generation failed")
      | GenResult.ok index_response =>
        run_sow_sections p 0 empty_sow_document (sow_planned_sections index_response)

/-- The payload a section position contributes after its at-most-two parse
attempts: `none` exactly when the section is skipped. -/
def section_payload (p : SowProvider) (pos : Nat) : Option JsonValue :=
  match p.sectionCall pos 0 with
  | GenResult.raises _ => none
  | GenResult.ok r1 =>
    match safe_parse_json r1 with
    | some payload => some payload
    | none =>
      match p.sectionCall pos 1 with
      | GenResult.raises _ => none
      | GenResult.ok r2 => safe_parse_json r2

/-- Merge an optional payload (skip on `none`). -/
def applyPayload (doc : JsonValue) : Option JsonValue → JsonValue
  | none => doc
  | some payload => merge_section doc payload

/-- The pure merge fold over `n` section positions starting at `pos`. -/
def sowMergeLoop (p : SowProvider) : Nat → JsonValue → Nat → JsonValue
  | _, doc, 0 => doc
  | pos, doc, n + 1 =>
    sowMergeLoop p (pos + 1) (applyPayload doc (section_payload p pos)) n

/-- Look a key up inside the `"document"` object of a SOW value. -/
def sow_doc_get (d : JsonValue) (k : String) : Option JsonValue :=
  match d with
  | JsonValue.obj tfields =>
    match jsonGet tfields "document" with
    | some (JsonValue.obj dfields) => jsonGet dfields k
    | _ => none
  | _ => none

/-- The fields of an optional object payload. -/
def payloadFields : Option JsonValue → List (String × JsonValue)
  | some (JsonValue.obj fs) => fs
  | _ => []

/-- The keys of an optional object payload. -/
def payloadKeys (pl : Option JsonValue) : List String :=
  (payloadFields pl).map (fun kv => kv.1)

/-- Does the payload write key `k`? -/
def payloadHasKey (pl : Option JsonValue) (k : String) : Bool :=
  (payloadFields pl).any (fun kv => kv.1 == k)

/-- The value the dict iteration of a payload leaves at key `k` (the last
binding wins, as in `for key, value in payload.items(): doc[key] = value`;
parsed payloads have unique keys, where this is plain lookup). -/
def payloadGetLast (pl : Option JsonValue) (k : String) : Option JsonValue :=
  ((payloadFields pl).reverse.find? (fun kv => kv.1 == k)).map (fun kv => kv.2)

/-! ## SOW schema (`sow_schema.py`)

The pydantic models are mirrored by boolean validators: `extra="forbid"`
forbids unknown keys, every declared field is required (except the two
`Optional` invoicing amounts), and the `Definitions` aliases use the
spaced names that the skeleton carries. -/

def jsonIsStr : JsonValue → Bool
  | JsonValue.str _ => true
  | _ => false

def jsonIsInt : JsonValue → Bool
  | JsonValue.num q => q.den == 1
  | _ => false

def jsonIsNum : JsonValue → Bool
  | JsonValue.num _ => true
  | _ => false

def jsonIsDict : JsonValue → Bool
  | JsonValue.obj _ => true
  | _ => false

def jsonListAll (check : JsonValue → Bool) : JsonValue → Bool
  | JsonValue.arr xs => xs.all check
  | _ => false

/-- All required keys present. -/
def objHasAll (fs : List (String × JsonValue)) (required : List String) : Bool :=
  required.all (fun k => objHasKey fs k)

/-- No unknown keys (`extra="forbid"`). -/
def objKeysAllowed (fs : List (String × JsonValue)) (allowed : List String) : Bool :=
  fs.all (fun kv => allowed.contains kv.1)

/-- Every binding of `k` satisfies `check`. -/
def fieldCheck (fs : List (String × JsonValue)) (k : String)
    (check : JsonValue → Bool) : Bool :=
  fs.all (fun kv => if kv.1 == k then check kv.2 else true)

def executive_summary_valid : JsonValue → Bool
  | JsonValue.obj fs =>
    objHasAll fs ["purpose", "methodology", "key_domains", "art_of_possible"] &&
    objKeysAllowed fs ["purpose", "methodology", "key_domains", "art_of_possible"] &&
    fieldCheck fs "purpose" jsonIsStr && fieldCheck fs "methodology" jsonIsStr &&
    fieldCheck fs "key_domains" (jsonListAll jsonIsStr) &&
    fieldCheck fs "art_of_possible" jsonIsStr
  | _ => false

def confidentiality_valid : JsonValue → Bool
  | JsonValue.obj fs =>
    objHasAll fs ["provisions"] && objKeysAllowed fs ["provisions"] &&
    fieldCheck fs "provisions" (jsonListAll jsonIsStr)
  | _ => false

def business_value_valid : JsonValue → Bool
  | JsonValue.obj fs =>
    objHasAll fs ["value_opportunities", "alignment_with_goals"] &&
    objKeysAllowed fs ["value_opportunities", "alignment_with_goals"] &&
    fieldCheck fs "value_opportunities" (jsonListAll jsonIsStr) &&
    fieldCheck fs "alignment_with_goals" (jsonListAll jsonIsStr)
  | _ => false

def definitions_valid : JsonValue → Bool
  | JsonValue.obj fs =>
    objHasAll fs ["Scope", "Deliverable", "Objectives", "Project Resource",
                  "Success Criteria", "Exclusions"] &&
    objKeysAllowed fs ["Scope", "Deliverable", "Objectives", "Project Resource",
                       "Success Criteria", "Exclusions"] &&
    fieldCheck fs "Scope" jsonIsStr && fieldCheck fs "Deliverable" jsonIsStr &&
    fieldCheck fs "Objectives" jsonIsStr &&
    fieldCheck fs "Project Resource" jsonIsStr &&
    fieldCheck fs "Success Criteria" jsonIsStr &&
    fieldCheck fs "Exclusions" jsonIsStr
  | _ => false

def project_resumption_charge_valid : JsonValue → Bool
  | JsonValue.obj fs =>
    objHasAll fs ["description"] && objKeysAllowed fs ["description"] &&
    fieldCheck fs "description" jsonIsStr
  | _ => false

def scope_of_services_valid : JsonValue → Bool
  | JsonValue.obj fs =>
    objHasAll fs ["activities", "deliverables_in_scope", "out_of_scope",
                  "statement_of_understanding", "assumptions",
                  "design_considerations", "customer_responsibilities",
                  "project_resumption_charge"] &&
    objKeysAllowed fs ["activities", "deliverables_in_scope", "out_of_scope",
                       "statement_of_understanding", "assumptions",
                       "design_considerations", "customer_responsibilities",
                       "project_resumption_charge"] &&
    fieldCheck fs "activities" (jsonListAll jsonIsDict) &&
    fieldCheck fs "deliverables_in_scope" (jsonListAll jsonIsStr) &&
    fieldCheck fs "out_of_scope" (jsonListAll jsonIsStr) &&
    fieldCheck fs "statement_of_understanding" (jsonListAll jsonIsStr) &&
    fieldCheck fs "assumptions" (jsonListAll jsonIsStr) &&
    fieldCheck fs "design_considerations" (jsonListAll jsonIsStr) &&
    fieldCheck fs "customer_responsibilities" (jsonListAll jsonIsStr) &&
    fieldCheck fs "project_resumption_charge" project_resumption_charge_valid
  | _ => false

def service_delivery_valid : JsonValue → Bool
  | JsonValue.obj fs =>
    objHasAll fs ["delivery_methodology"] &&
    objKeysAllowed fs ["delivery_methodology"] &&
    fieldCheck fs "delivery_methodology" jsonIsStr
  | _ => false

def role_profile_valid : JsonValue → Bool
  | JsonValue.obj fs =>
    objHasAll fs ["title", "responsibility"] &&
    objKeysAllowed fs ["title", "responsibility"] &&
    fieldCheck fs "title" jsonIsStr && fieldCheck fs "responsibility" jsonIsStr
  | _ => false

def resource_profiles_valid : JsonValue → Bool
  | JsonValue.obj fs =>
    objHasAll fs ["roles", "resource_allocation"] &&
    objKeysAllowed fs ["roles", "resource_allocation"] &&
    fieldCheck fs "roles" (jsonListAll role_profile_valid) &&
    fieldCheck fs "resource_allocation" jsonIsStr
  | _ => false

def jsonIsNumOrNull : JsonValue → Bool
  | JsonValue.num _ => true
  | JsonValue.null => true
  | _ => false

def invoicing_item_valid : JsonValue → Bool
  | JsonValue.obj fs =>
    objHasAll fs ["milestone"] &&
    objKeysAllowed fs ["milestone", "payment_amount_usd", "amount_usd"] &&
    fieldCheck fs "milestone" jsonIsStr &&
    fieldCheck fs "payment_amount_usd" jsonIsNumOrNull &&
    fieldCheck fs "amount_usd" jsonIsNumOrNull
  | _ => false

def fees_valid : JsonValue → Bool
  | JsonValue.obj fs =>
    objHasAll fs ["estimated_duration_weeks", "invoicing_schedule", "notes"] &&
    objKeysAllowed fs ["estimated_duration_weeks", "invoicing_schedule", "notes"] &&
    fieldCheck fs "estimated_duration_weeks" jsonIsInt &&
    fieldCheck fs "invoicing_schedule" (jsonListAll invoicing_item_valid) &&
    fieldCheck fs "notes" (jsonListAll jsonIsStr)
  | _ => false

def expenses_valid : JsonValue → Bool
  | JsonValue.obj fs =>
    objHasAll fs ["reimbursed"] && objKeysAllowed fs ["reimbursed"] &&
    fieldCheck fs "reimbursed" (jsonListAll jsonIsStr)
  | _ => false

def change_management_valid : JsonValue → Bool
  | JsonValue.obj fs =>
    objHasAll fs ["requirement"] && objKeysAllowed fs ["requirement"] &&
    fieldCheck fs "requirement" jsonIsStr
  | _ => false

def signature_block_valid : JsonValue → Bool
  | JsonValue.obj fs =>
    objHasAll fs ["party", "entity", "fields"] &&
    objKeysAllowed fs ["party", "entity", "fields"] &&
    fieldCheck fs "party" jsonIsStr && fieldCheck fs "entity" jsonIsStr &&
    fieldCheck fs "fields" (jsonListAll jsonIsStr)
  | _ => false

def acceptance_approvals_valid : JsonValue → Bool
  | JsonValue.obj fs =>
    objHasAll fs ["terms", "signature_blocks"] &&
    objKeysAllowed fs ["terms", "signature_blocks"] &&
    fieldCheck fs "terms" (jsonListAll jsonIsStr) &&
    fieldCheck fs "signature_blocks" (jsonListAll signature_block_valid)
  | _ => false

/-- Validity of one top-level `Document` field value; keys the schema does
not declare are rejected at the document level, not here. -/
def sow_field_valid (k : String) (v : JsonValue) : Bool :=
  if k == "title" || k == "date" || k == "version" || k == "provider"
      || k == "client" then jsonIsStr v
  else if k == "executive_summary" then executive_summary_valid v
  else if k == "confidentiality" then confidentiality_valid v
  else if k == "business_value" then business_value_valid v
  else if k == "definitions" then definitions_valid v
  else if k == "scope_of_services" then scope_of_services_valid v
  else if k == "service_delivery" then service_delivery_valid v
  else if k == "resource_profiles" then resource_profiles_valid v
  else if k == "fees" then fees_valid v
  else if k == "expenses" then expenses_valid v
  else if k == "change_management" then change_management_valid v
  else if k == "acceptance_and_approvals" then acceptance_approvals_valid v
  else true

/-- `SOWSchema` validity of a whole value: exactly one `document` key whose
object carries exactly the sixteen `Document` fields, each valid. -/
def sow_schema_valid (d : JsonValue) : Bool :=
  match d with
  | JsonValue.obj tfields =>
    objHasAll tfields ["document"] && objKeysAllowed tfields ["document"] &&
    (match jsonGet tfields "document" with
     | some (JsonValue.obj dfields) =>
       objHasAll dfields default_sections && objKeysAllowed dfields default_sections &&
       dfields.all (fun kv => sow_field_valid kv.1 kv.2)
     | _ => false)
  | _ => false

/-- The schema accepts the empty skeleton. -/
theorem sow_schema_valid_empty : sow_schema_valid empty_sow_document = true := by rfl

/-! ## Facts about the merge primitives -/

theorem jsonGet_assocReplace_self {fs : List (String × JsonValue)} {k : String}
    {w : JsonValue} (h : jsonGet fs k = some w) (v : JsonValue) :
    jsonGet (assocReplace fs k v) k = some v := by
  induction fs with
  | nil => simp [jsonGet] at h
  | cons kv rest ih =>
    obtain ⟨a, b⟩ := kv
    by_cases hbeq : a = k
    · simp [jsonGet, assocReplace, List.find?_cons, hbeq]
    · simp only [jsonGet, List.find?_cons] at h ⊢
      simp only [assocReplace]
      simp only [show (a == k) = false by simp [hbeq]] at h ⊢
      simp only [if_false, Bool.false_eq_true, List.find?_cons,
        show (a == k) = false by simp [hbeq]]
      exact ih h

theorem jsonGet_assocReplace_other {fs : List (String × JsonValue)} {k1 k : String}
    (h : k1 ≠ k) (v : JsonValue) :
    jsonGet (assocReplace fs k1 v) k = jsonGet fs k := by
  induction fs with
  | nil => rfl
  | cons kv rest ih =>
    obtain ⟨a, b⟩ := kv
    by_cases hbeq : a = k1
    · simp [assocReplace, hbeq, jsonGet, List.find?_cons,
        show (k1 == k) = false by simp [h]]
    · by_cases hbk2 : a = k
      · subst hbk2
        simp [assocReplace, show (a == k1) = false by simp [hbeq], jsonGet,
          List.find?_cons]
      · simp only [assocReplace, show (a == k1) = false by simp [hbeq], if_false,
          Bool.false_eq_true, jsonGet, List.find?_cons,
          show (a == k) = false by simp [hbk2]]
        exact ih

theorem keys_assocReplace (fs : List (String × JsonValue)) (k : String) (v : JsonValue) :
    (assocReplace fs k v).map Prod.fst = fs.map Prod.fst := by
  induction fs with
  | nil => rfl
  | cons kv rest ih =>
    obtain ⟨a, b⟩ := kv
    by_cases hbeq : a = k
    · simp [assocReplace, hbeq]
    · simp [assocReplace, show (a == k) = false by simp [hbeq], ih]

theorem objHasKey_assocReplace (fs : List (String × JsonValue)) (k1 k : String)
    (v : JsonValue) : objHasKey (assocReplace fs k1 v) k = objHasKey fs k := by
  induction fs with
  | nil => rfl
  | cons kv rest ih =>
    obtain ⟨a, b⟩ := kv
    by_cases hbeq : a = k1
    · simp [assocReplace, hbeq, objHasKey, List.any_cons]
    · simp only [assocReplace, show (a == k1) = false by simp [hbeq], if_false,
        Bool.false_eq_true, objHasKey, List.any_cons]
      rw [show (assocReplace rest k1 v).any (fun p => p.1 == k)
            = objHasKey (assocReplace rest k1 v) k from rfl,
          show rest.any (fun p => p.1 == k) = objHasKey rest k from rfl, ih]

theorem objHasKey_mergeStep (acc : List (String × JsonValue)) (kv : String × JsonValue)
    (k : String) : objHasKey (mergeStep acc kv) k = objHasKey acc k := by
  unfold mergeStep
  by_cases h : objHasKey acc kv.1
  · simp [h, objHasKey_assocReplace]
  · simp [h]

theorem objHasKey_foldl (pfields : List (String × JsonValue))
    (acc : List (String × JsonValue)) (k : String) :
    objHasKey (pfields.foldl mergeStep acc) k = objHasKey acc k := by
  induction pfields generalizing acc with
  | nil => rfl
  | cons kv rest ih => rw [List.foldl_cons, ih, objHasKey_mergeStep]

theorem keys_mergeStep (acc : List (String × JsonValue)) (kv : String × JsonValue) :
    (mergeStep acc kv).map Prod.fst = acc.map Prod.fst := by
  unfold mergeStep
  by_cases h : objHasKey acc kv.1
  · simp [h, keys_assocReplace]
  · simp [h]

theorem keys_foldl (pfields : List (String × JsonValue))
    (acc : List (String × JsonValue)) :
    (pfields.foldl mergeStep acc).map Prod.fst = acc.map Prod.fst := by
  induction pfields generalizing acc with
  | nil => rfl
  | cons kv rest ih => rw [List.foldl_cons, ih, keys_mergeStep]

theorem jsonGet_isSome_eq_objHasKey (fs : List (String × JsonValue)) (k : String) :
    (jsonGet fs k).isSome = objHasKey fs k := by
  induction fs with
  | nil => rfl
  | cons kv rest ih =>
    cases hbeq : (kv.1 == k) with
    | true => simp [jsonGet, List.find?_cons, hbeq, objHasKey, List.any_cons]
    | false =>
      simp only [jsonGet, List.find?_cons, hbeq, objHasKey, List.any_cons,
        Bool.false_or]
      exact ih

theorem jsonGet_mergeStep_other (acc : List (String × JsonValue))
    (kv : String × JsonValue) (k : String) (h : (kv.1 == k) = false) :
    jsonGet (mergeStep acc kv) k = jsonGet acc k := by
  unfold mergeStep
  by_cases hk : objHasKey acc kv.1
  · simp only [hk, if_true]
    exact jsonGet_assocReplace_other (by simpa using h) kv.2
  · simp [hk]

theorem jsonGet_foldl_not_written (pfields : List (String × JsonValue))
    (acc : List (String × JsonValue)) (k : String)
    (h : ∀ kv ∈ pfields, (kv.1 == k) = false) :
    jsonGet (pfields.foldl mergeStep acc) k = jsonGet acc k := by
  induction pfields generalizing acc with
  | nil => rfl
  | cons kv rest ih =>
    rw [List.foldl_cons, ih _ (fun kv2 hkv2 => h kv2 (List.mem_cons_of_mem kv hkv2)),
        jsonGet_mergeStep_other acc kv k (h kv (List.mem_cons_self kv rest))]

theorem jsonGet_foldl_last_written (pfields : List (String × JsonValue))
    (acc : List (String × JsonValue)) (k : String) (hacc : objHasKey acc k = true) :
    jsonGet (pfields.foldl mergeStep acc) k
      = match pfields.reverse.find? (fun kv => kv.1 == k) with
        | some kv => some kv.2
        | none => jsonGet acc k := by
  induction pfields generalizing acc with
  | nil => rfl
  | cons kv rest ih =>
    rw [List.foldl_cons,
      ih (mergeStep acc kv) (by rw [objHasKey_mergeStep]; exact hacc)]
    rw [List.reverse_cons, List.find?_append]
    cases hrest : rest.reverse.find? (fun kv => kv.1 == k) with
    | some kv2 => simp
    | none =>
      simp only [Option.none_orElse]
      cases hbeq : (kv.1 == k) with
      | false =>
        simp only [List.find?_singleton, hbeq, if_false, cond_false]
        exact jsonGet_mergeStep_other acc kv k hbeq
      | true =>
        simp only [List.find?_singleton, hbeq, cond_true]
        have hkeq : kv.1 = k := by simpa using hbeq
        unfold mergeStep
        rw [hkeq, hacc, if_pos rfl]
        obtain ⟨w, hw⟩ := Option.isSome_iff_exists.mp
          (by rw [jsonGet_isSome_eq_objHasKey]; exact hacc)
        exact jsonGet_assocReplace_self hw kv.2

/-! ## Behaviour of `merge_section` on the document -/

theorem sow_doc_get_merge_not_written (doc pl : JsonValue) (k : String)
    (h : payloadHasKey (some pl) k = false) :
    sow_doc_get (merge_section doc pl) k = sow_doc_get doc k := by
  cases pl with
  | obj pfields =>
    cases doc with
    | obj tfields =>
      cases hdoc : jsonGet tfields "document" with
      | none => simp [merge_section, hdoc]
      | some dv =>
        cases dv with
        | obj dfields =>
          have hall : ∀ kv ∈ pfields, (kv.1 == k) = false := by
            simpa [payloadHasKey, payloadFields, List.any_eq_false] using h
          simp only [merge_section, hdoc]
          have h1 := jsonGet_assocReplace_self hdoc
            (JsonValue.obj (pfields.foldl mergeStep dfields))
          simp only [sow_doc_get, h1, hdoc]
          exact jsonGet_foldl_not_written pfields dfields k hall
        | null => simp [merge_section, hdoc]
        | bool b => simp [merge_section, hdoc]
        | num q => simp [merge_section, hdoc]
        | str s => simp [merge_section, hdoc]
        | arr xs => simp [merge_section, hdoc]
    | null => rfl
    | bool b => rfl
    | num q => rfl
    | str s => rfl
    | arr xs => rfl
  | null => rfl
  | bool b => rfl
  | num q => rfl
  | str s => rfl
  | arr xs => rfl

theorem sow_doc_get_merge_written (doc pl : JsonValue) (k : String) (v : JsonValue)
    (hdockey : (sow_doc_get doc k).isSome = true)
    (hlast : payloadGetLast (some pl) k = some v) :
    sow_doc_get (merge_section doc pl) k = some v := by
  cases pl with
  | obj pfields =>
    cases doc with
    | obj tfields =>
      cases hdoc : jsonGet tfields "document" with
      | none => simp [sow_doc_get, hdoc] at hdockey
      | some dv =>
        cases dv with
        | obj dfields =>
          have hacc : objHasKey dfields k = true := by
            have h2 := hdockey
            simp only [sow_doc_get, hdoc] at h2
            rwa [jsonGet_isSome_eq_objHasKey] at h2
          simp only [merge_section, hdoc]
          have h1 := jsonGet_assocReplace_self hdoc
            (JsonValue.obj (pfields.foldl mergeStep dfields))
          simp only [sow_doc_get, h1]
          rw [jsonGet_foldl_last_written pfields dfields k hacc]
          simp only [payloadGetLast, payloadFields] at hlast
          cases hfind : pfields.reverse.find? (fun kv => kv.1 == k) with
          | none => rw [hfind] at hlast; simp at hlast
          | some kv0 =>
            rw [hfind] at hlast
            simpa using hlast
        | null => simp [sow_doc_get, hdoc] at hdockey
        | bool b => simp [sow_doc_get, hdoc] at hdockey
        | num q => simp [sow_doc_get, hdoc] at hdockey
        | str s => simp [sow_doc_get, hdoc] at hdockey
        | arr xs => simp [sow_doc_get, hdoc] at hdockey
    | null => simp [sow_doc_get] at hdockey
    | bool b => simp [sow_doc_get] at hdockey
    | num q => simp [sow_doc_get] at hdockey
    | str s => simp [sow_doc_get] at hdockey
    | arr xs => simp [sow_doc_get] at hdockey
  | null => simp [payloadGetLast, payloadFields] at hlast
  | bool b => simp [payloadGetLast, payloadFields] at hlast
  | num q => simp [payloadGetLast, payloadFields] at hlast
  | str s => simp [payloadGetLast, payloadFields] at hlast
  | arr xs => simp [payloadGetLast, payloadFields] at hlast

theorem sow_doc_get_merge_isSome (doc pl : JsonValue) (k : String) :
    (sow_doc_get (merge_section doc pl) k).isSome = (sow_doc_get doc k).isSome := by
  cases pl with
  | obj pfields =>
    cases doc with
    | obj tfields =>
      cases hdoc : jsonGet tfields "document" with
      | none => simp [merge_section, hdoc]
      | some dv =>
        cases dv with
        | obj dfields =>
          simp only [merge_section, hdoc]
          have h1 := jsonGet_assocReplace_self hdoc
            (JsonValue.obj (pfields.foldl mergeStep dfields))
          simp only [sow_doc_get, h1, hdoc]
          rw [jsonGet_isSome_eq_objHasKey, jsonGet_isSome_eq_objHasKey, objHasKey_foldl]
        | null => simp [merge_section, hdoc]
        | bool b => simp [merge_section, hdoc]
        | num q => simp [merge_section, hdoc]
        | str s => simp [merge_section, hdoc]
        | arr xs => simp [merge_section, hdoc]
    | null => rfl
    | bool b => rfl
    | num q => rfl
    | str s => rfl
    | arr xs => rfl
  | null => rfl
  | bool b => rfl
  | num q => rfl
  | str s => rfl
  | arr xs => rfl

/-! ## Behaviour of the merge fold over section positions -/

theorem sowMergeLoop_get_untouched (p : SowProvider) (n : Nat) :
    ∀ (pos : Nat) (doc : JsonValue) (k : String),
    (∀ i, i < n → payloadHasKey (section_payload p (pos + i)) k = false) →
    sow_doc_get (sowMergeLoop p pos doc n) k = sow_doc_get doc k := by
  induction n with
  | zero => intro pos doc k _; rfl
  | succ n ih =>
    intro pos doc k h
    simp only [sowMergeLoop]
    rw [ih (pos + 1) _ k (fun i hi => by
      have h2 := h (i + 1) (Nat.succ_lt_succ hi)
      rwa [show pos + (i + 1) = pos + 1 + i by omega] at h2)]
    have h0 := h 0 (Nat.succ_pos n)
    rw [Nat.add_zero] at h0
    cases hsp : section_payload p pos with
    | none => rfl
    | some pl =>
      rw [hsp] at h0
      exact sow_doc_get_merge_not_written doc pl k h0

theorem sowMergeLoop_isSome (p : SowProvider) (n : Nat) :
    ∀ (pos : Nat) (doc : JsonValue) (k : String),
    (sow_doc_get (sowMergeLoop p pos doc n) k).isSome = (sow_doc_get doc k).isSome := by
  induction n with
  | zero => intro pos doc k; rfl
  | succ n ih =>
    intro pos doc k
    simp only [sowMergeLoop]
    rw [ih (pos + 1)]
    cases section_payload p pos with
    | none => rfl
    | some pl => exact sow_doc_get_merge_isSome doc pl k

theorem sowMergeLoop_get_written (p : SowProvider) (n : Nat) :
    ∀ (pos : Nat) (doc : JsonValue) (k : String) (v : JsonValue) (i : Nat),
    i < n →
    payloadGetLast (section_payload p (pos + i)) k = some v →
    (sow_doc_get doc k).isSome = true →
    (∀ j, i < j → j < n → payloadHasKey (section_payload p (pos + j)) k = false) →
    sow_doc_get (sowMergeLoop p pos doc n) k = some v := by
  induction n with
  | zero => intro pos doc k v i hi; omega
  | succ n ih =>
    intro pos doc k v i hi hlast hdoc hafter
    simp only [sowMergeLoop]
    cases i with
    | zero =>
      rw [Nat.add_zero] at hlast
      cases hsp : section_payload p pos with
      | none => rw [hsp] at hlast; simp [payloadGetLast, payloadFields] at hlast
      | some pl =>
        rw [hsp] at hlast
        rw [sowMergeLoop_get_untouched p n (pos + 1) _ k (fun i2 hi2 => by
          have h2 := hafter (i2 + 1) (Nat.succ_pos i2) (Nat.succ_lt_succ hi2)
          rwa [show pos + (i2 + 1) = pos + 1 + i2 by omega] at h2)]
        show sow_doc_get (merge_section doc pl) k = some v
        exact sow_doc_get_merge_written doc pl k v hdoc hlast
    | succ i0 =>
      refine ih (pos + 1) _ k v i0 (Nat.lt_of_succ_lt_succ hi) ?_ ?_ ?_
      · rwa [show pos + 1 + i0 = pos + (i0 + 1) by omega]
      · cases hsp : section_payload p pos with
        | none => simpa using hdoc
        | some pl =>
          show (sow_doc_get (merge_section doc pl) k).isSome = true
          rw [sow_doc_get_merge_isSome]
          exact hdoc
      · intro j hj1 hj2
        have h2 := hafter (j + 1) (Nat.succ_lt_succ hj1) (Nat.succ_lt_succ hj2)
        rwa [show pos + (j + 1) = pos + 1 + j by omega] at h2

/-- When every section call returns text (possibly unparseable), the loop
never raises: it returns exactly the merge fold of the section payloads. -/
theorem run_sow_sections_eq_mergeLoop (p : SowProvider) (sections : List String) :
    ∀ (pos : Nat) (doc : JsonValue),
    (∀ i, i < sections.length →
      (p.sectionCall (pos + i) 0).isOk = true ∧ (p.sectionCall (pos + i) 1).isOk = true) →
    run_sow_sections p pos doc sections
      = Except.ok (sowMergeLoop p pos doc sections.length) := by
  induction sections with
  | nil => intro pos doc _; rfl
  | cons s rest ih =>
    intro pos doc h
    have h0 := h 0 (Nat.succ_pos _)
    rw [Nat.add_zero] at h0
    have hshift : ∀ i, i < rest.length →
        (p.sectionCall (pos + 1 + i) 0).isOk = true ∧
        (p.sectionCall (pos + 1 + i) 1).isOk = true := by
      intro i hi
      have h2 := h (i + 1) (Nat.succ_lt_succ hi)
      rwa [show pos + (i + 1) = pos + 1 + i by omega] at h2
    cases hc0 : p.sectionCall pos 0 with
    | raises m => rw [hc0] at h0; simp [GenResult.isOk] at h0
    | ok r1 =>
      cases hp1 : safe_parse_json r1 with
      | some payload =>
        have hsp : section_payload p pos = some payload := by
          simp [section_payload, hc0, hp1]
        simp only [run_sow_sections, List.length_cons, sowMergeLoop, hc0, hp1,
          hsp, applyPayload]
        exact ih (pos + 1) (merge_section doc payload) hshift
      | none =>
        cases hc1 : p.sectionCall pos 1 with
        | raises m => rw [hc1] at h0; simp [GenResult.isOk] at h0
        | ok r2 =>
          cases hp2 : safe_parse_json r2 with
          | some payload =>
            have hsp : section_payload p pos = some payload := by
              simp [section_payload, hc0, hp1, hc1, hp2]
            simp only [run_sow_sections, List.length_cons, sowMergeLoop, hc0, hp1,
              hc1, hp2, hsp, applyPayload]
            exact ih (pos + 1) (merge_section doc payload) hshift
          | none =>
            have hsp : section_payload p pos = none := by
              simp [section_payload, hc0, hp1, hc1, hp2]
            simp only [run_sow_sections, List.length_cons, sowMergeLoop, hc0, hp1,
              hc1, hp2, hsp, applyPayload]
            exact ih (pos + 1) doc hshift

/-! ## Schema preservation through the merge -/

/-- Replacing the value of a key with a field-valid one keeps all entries
field-valid. -/
theorem all_valid_assocReplace {fs : List (String × JsonValue)} {k : String}
    {v : JsonValue} (hall : ∀ kv ∈ fs, sow_field_valid kv.1 kv.2 = true)
    (hv : sow_field_valid k v = true) :
    ∀ kv ∈ assocReplace fs k v, sow_field_valid kv.1 kv.2 = true := by
  induction fs with
  | nil => intro kv hkv; cases hkv
  | cons kv0 rest ih =>
    obtain ⟨a, b⟩ := kv0
    intro kv hkv
    by_cases hbeq : a = k
    · rw [show assocReplace ((a, b) :: rest) k v = (a, v) :: rest from by
        simp [assocReplace, hbeq]] at hkv
      rcases List.mem_cons.mp hkv with rfl | hmem
      · simpa [hbeq] using hv
      · exact hall kv (List.mem_cons_of_mem _ hmem)
    · rw [show assocReplace ((a, b) :: rest) k v = (a, b) :: assocReplace rest k v from by
        simp [assocReplace, show (a == k) = false by simp [hbeq]]] at hkv
      rcases List.mem_cons.mp hkv with rfl | hmem
      · exact hall (a, b) (List.mem_cons_self _ _)
      · exact ih (fun kv2 hkv2 => hall kv2 (List.mem_cons_of_mem _ hkv2)) kv hmem

/-- The merge fold keeps all entries field-valid when every payload entry
is field-valid. -/
theorem all_valid_foldl {pfields : List (String × JsonValue)} :
    ∀ {acc : List (String × JsonValue)},
    (∀ kv ∈ acc, sow_field_valid kv.1 kv.2 = true) →
    (∀ kv ∈ pfields, sow_field_valid kv.1 kv.2 = true) →
    ∀ kv ∈ pfields.foldl mergeStep acc, sow_field_valid kv.1 kv.2 = true := by
  induction pfields with
  | nil => intro acc hacc _ kv hkv; exact hacc kv hkv
  | cons kv0 rest ih =>
    intro acc hacc hp kv hkv
    rw [List.foldl_cons] at hkv
    refine ih ?_ (fun kv2 hkv2 => hp kv2 (List.mem_cons_of_mem _ hkv2)) kv hkv
    unfold mergeStep
    by_cases hin : objHasKey acc kv0.1
    · simp only [hin, if_true]
      exact all_valid_assocReplace hacc (hp kv0 (List.mem_cons_self _ _))
    · simp only [hin]
      simpa using hacc

theorem objHasKey_eq_keys_any (fs : List (String × JsonValue)) (k : String) :
    objHasKey fs k = (fs.map Prod.fst).any (fun a => a == k) := by
  induction fs with
  | nil => rfl
  | cons kv rest ih =>
    simp only [objHasKey, List.map_cons, List.any_cons] at ih ⊢
    rw [ih]

theorem objKeysAllowed_eq_keys_all (fs : List (String × JsonValue))
    (allowed : List String) :
    objKeysAllowed fs allowed = (fs.map Prod.fst).all (fun a => allowed.contains a) := by
  induction fs with
  | nil => rfl
  | cons kv rest ih =>
    simp only [objKeysAllowed, List.map_cons, List.all_cons] at ih ⊢
    rw [ih]

/-- Key-set boolean checks are determined by the key list. -/
theorem objHasAll_of_keys_eq {fs1 fs2 : List (String × JsonValue)}
    (h : fs1.map Prod.fst = fs2.map Prod.fst) (req : List String) :
    objHasAll fs1 req = objHasAll fs2 req := by
  unfold objHasAll
  congr 1
  funext k
  show objHasKey fs1 k = objHasKey fs2 k
  rw [objHasKey_eq_keys_any, objHasKey_eq_keys_any, h]

theorem objKeysAllowed_of_keys_eq {fs1 fs2 : List (String × JsonValue)}
    (h : fs1.map Prod.fst = fs2.map Prod.fst) (allowed : List String) :
    objKeysAllowed fs1 allowed = objKeysAllowed fs2 allowed := by
  rw [objKeysAllowed_eq_keys_all, objKeysAllowed_eq_keys_all, h]

/-- Merging a payload whose entries are all field-valid preserves schema
validity of the document. -/
theorem sow_schema_valid_merge (doc pl : JsonValue)
    (hdoc : sow_schema_valid doc = true)
    (hpl : ∀ kv ∈ payloadFields (some pl), sow_field_valid kv.1 kv.2 = true) :
    sow_schema_valid (merge_section doc pl) = true := by
  cases pl with
  | obj pfields =>
    cases doc with
    | obj tfields =>
      cases hdg : jsonGet tfields "document" with
      | none => simpa [merge_section, hdg] using hdoc
      | some dv =>
        cases dv with
        | obj dfields =>
          simp only [sow_schema_valid, hdg, Bool.and_eq_true] at hdoc
          obtain ⟨⟨hhas, hallow⟩, ⟨hreq, hdallow⟩, hdval⟩ := hdoc
          simp only [merge_section, hdg]
          have h1 := jsonGet_assocReplace_self hdg
            (JsonValue.obj (pfields.foldl mergeStep dfields))
          have hkeystop := keys_assocReplace tfields "document"
            (JsonValue.obj (pfields.foldl mergeStep dfields))
          have hkeysdoc := keys_foldl pfields dfields
          simp only [sow_schema_valid, h1, Bool.and_eq_true]
          refine ⟨⟨?_, ?_⟩, ⟨?_, ?_⟩, ?_⟩
          · rw [objHasAll_of_keys_eq hkeystop]; exact hhas
          · rw [objKeysAllowed_of_keys_eq hkeystop]; exact hallow
          · rw [objHasAll_of_keys_eq hkeysdoc]; exact hreq
          · rw [objKeysAllowed_of_keys_eq hkeysdoc]; exact hdallow
          · rw [List.all_eq_true]
            intro kv hkv
            exact all_valid_foldl (fun kv2 hkv2 => by
                have h3 := (List.all_eq_true.mp hdval) kv2 hkv2
                simpa using h3)
              (fun kv2 hkv2 => hpl kv2 (by simpa [payloadFields] using hkv2))
              kv hkv
        | null => simp [sow_schema_valid, hdg] at hdoc
        | bool b => simp [sow_schema_valid, hdg] at hdoc
        | num q => simp [sow_schema_valid, hdg] at hdoc
        | str s => simp [sow_schema_valid, hdg] at hdoc
        | arr xs => simp [sow_schema_valid, hdg] at hdoc
    | null => simp [sow_schema_valid] at hdoc
    | bool b => simp [sow_schema_valid] at hdoc
    | num q => simp [sow_schema_valid] at hdoc
    | str s => simp [sow_schema_valid] at hdoc
    | arr xs => simp [sow_schema_valid] at hdoc
  | null => simpa [merge_section] using hdoc
  | bool b => simpa [merge_section] using hdoc
  | num q => simpa [merge_section] using hdoc
  | str s => simpa [merge_section] using hdoc
  | arr xs => simpa [merge_section] using hdoc

/-- The merge fold keeps the whole document schema-valid when every payload
entry of every section is field-valid. -/
theorem sowMergeLoop_schema_valid (p : SowProvider) (n : Nat) :
    ∀ (pos : Nat) (doc : JsonValue),
    sow_schema_valid doc = true →
    (∀ i, i < n → ∀ kv ∈ payloadFields (section_payload p (pos + i)),
      sow_field_valid kv.1 kv.2 = true) →
    sow_schema_valid (sowMergeLoop p pos doc n) = true := by
  induction n with
  | zero => intro pos doc hdoc _; exact hdoc
  | succ n ih =>
    intro pos doc hdoc h
    simp only [sowMergeLoop]
    refine ih (pos + 1) _ ?_ (fun i hi => by
      have h2 := h (i + 1) (Nat.succ_lt_succ hi)
      rwa [show pos + (i + 1) = pos + 1 + i by omega] at h2)
    have h0 := h 0 (Nat.succ_pos n)
    rw [Nat.add_zero] at h0
    cases hsp : section_payload p pos with
    | none => exact hdoc
    | some pl =>
      rw [hsp] at h0
      exact sow_schema_valid_merge doc pl hdoc h0

/-- A merge fold in which every section was skipped leaves the document
unchanged. -/
theorem sowMergeLoop_all_skipped (p : SowProvider) (n : Nat) :
    ∀ (pos : Nat) (doc : JsonValue),
    (∀ i, i < n → section_payload p (pos + i) = none) →
    sowMergeLoop p pos doc n = doc := by
  induction n with
  | zero => intro pos doc _; rfl
  | succ n ih =>
    intro pos doc h
    have h0 := h 0 (Nat.succ_pos n)
    rw [Nat.add_zero] at h0
    simp only [sowMergeLoop, h0, applyPayload]
    exact ih (pos + 1) doc (fun i hi => by
      have h2 := h (i + 1) (Nat.succ_lt_succ hi)
      rwa [show pos + (i + 1) = pos + 1 + i by omega] at h2)

/-- A provider that raises on every call. -/
def failing_sow_provider : SowProvider :=
  ⟨GenResult.raises "Bedrock request failed",
   fun _ _ => GenResult.raises "Bedrock request failed"⟩

/-- A provider that answers every call with unparseable text. -/
def garbage_sow_provider : SowProvider :=
  ⟨GenResult.ok "no json here", fun _ _ => GenResult.ok "no json here"⟩

/-- C1 counterexample: with a completely unresponsive provider (every call
raises), `generate_statement_of_work` neither returns a fallback document
nor surfaces the provider error: the run dies earlier, at the line-31
retrieval call, whose undeclared `top_k` keyword raises `TypeError`. -/
theorem c1_provider_outage_counterexample :
    generate_statement_of_work_model
        [("functional_requirements", JsonValue.arr [])] failing_sow_provider
      = Except.error (PyError.typeError "got an unexpected keyword argument top_k") :=
  rfl

/-- C1 amended: for every non-empty structured-requirements input and every
provider behaviour — a completely unresponsive provider included —
`generate_statement_of_work` raises `TypeError` from the line-31 retrieval
call binding before any provider call is made, so it never returns a
fallback (or any other) document, and no provider error is ever raised
because the provider is never invoked. -/
theorem c1_retrieval_type_error_preempts_provider
    (requirements : List (String × JsonValue)) (p : SowProvider)
    (hreq : requirements ≠ []) :
    generate_statement_of_work_model requirements p
      = Except.error (PyError.typeError "got an unexpected keyword argument top_k") := by
  cases requirements with
  | nil => exact absurd rfl hreq
  | cons a l => rfl

/-- C1 amended witness: the pre-empting `TypeError` at a concrete
requirements object, under the all-garbage provider. -/
theorem c1_retrieval_type_error_preempts_provider_witness :
    generate_statement_of_work_model
        [("functional_requirements", JsonValue.arr [])] garbage_sow_provider
      = Except.error (PyError.typeError "got an unexpected keyword argument top_k") :=
  c1_retrieval_type_error_preempts_provider
    [("functional_requirements", JsonValue.arr [])] garbage_sow_provider (by simp)

/-- The provider of the C6 scenario: eight sections answer with a parseable
payload and two (positions 8 and 9) answer with garbage on both attempts;
the index response is unparseable, so a ten-name capped default plan would
be used. -/
def c6_sample_provider : SowProvider where
  indexCall := GenResult.ok "not json"
  sectionCall := fun pos _ =>
    if pos == 8 || pos == 9 then GenResult.ok "still not json"
    else GenResult.ok "\x7b\"title\": \"Generated\"\x7d"

/-- C6 counterexample: even in the scenario of the claim — ten planned
sections of which two consistently fail to parse — `generate_statement_of_work`
returns no document at all: the run raises `TypeError` at the line-31
retrieval call before any section is generated. -/
theorem c6_document_never_returned_counterexample :
    generate_statement_of_work_model
        [("functional_requirements", JsonValue.arr [])] c6_sample_provider
      = Except.error (PyError.typeError "got an unexpected keyword argument top_k") :=
  rfl

/-- C6 amended: the failure-isolation protocol holds of the section loop
(lines 85–155) itself, though `generate_statement_of_work` never reaches
it (see the counterexample): for every planned section list, when the
provider returns text for every call, the loop returns the merged document
(never an error); every key written by no parsed payload keeps its
skeleton default — in particular the keys of sections whose two responses
both fail to parse and are skipped; every key some parsed payload writes
last carries that value; and the merged document is schema-valid provided
every merged payload entry is schema-conformant (`_validate_sow_dict`
itself checks only that the merge produced a dict). -/
theorem c6_failed_sections_skipped_others_merged
    (sections : List String) (p : SowProvider)
    (hok : ∀ i, i < sections.length →
      (p.sectionCall i 0).isOk = true ∧ (p.sectionCall i 1).isOk = true) :
    run_sow_sections p 0 empty_sow_document sections
        = Except.ok (sowMergeLoop p 0 empty_sow_document sections.length) ∧
    (∀ k, (∀ i, i < sections.length →
        payloadHasKey (section_payload p i) k = false) →
      sow_doc_get (sowMergeLoop p 0 empty_sow_document sections.length) k
        = sow_doc_get empty_sow_document k) ∧
    (∀ i k v, i < sections.length →
      payloadGetLast (section_payload p i) k = some v →
      (sow_doc_get empty_sow_document k).isSome = true →
      (∀ j, i < j → j < sections.length →
        payloadHasKey (section_payload p j) k = false) →
      sow_doc_get (sowMergeLoop p 0 empty_sow_document sections.length) k
        = some v) ∧
    ((∀ i, i < sections.length →
        ∀ kv ∈ payloadFields (section_payload p i),
          sow_field_valid kv.1 kv.2 = true) →
      sow_schema_valid (sowMergeLoop p 0 empty_sow_document sections.length)
        = true) := by
  refine ⟨?_, ?_, ?_, ?_⟩
  · exact run_sow_sections_eq_mergeLoop p sections 0 empty_sow_document
      (fun i hi => by rw [Nat.zero_add]; exact hok i hi)
  · intro k hk
    exact sowMergeLoop_get_untouched p sections.length 0 empty_sow_document k
      (fun i hi => by rw [Nat.zero_add]; exact hk i hi)
  · intro i k v hi hlast hkey hafter
    exact sowMergeLoop_get_written p sections.length 0 empty_sow_document k v i hi
      (by rwa [Nat.zero_add]) hkey
      (fun j hj1 hj2 => by rw [Nat.zero_add]; exact hafter j hj1 hj2)
  · intro hvalid
    exact sowMergeLoop_schema_valid p sections.length 0 empty_sow_document
      sow_schema_valid_empty (fun i hi => by rw [Nat.zero_add]; exact hvalid i hi)

/-- C6 amended witness: the loop guarantees at the concrete ten-section
plan (the capped default ordering) with two consistently unparseable
sections. -/
theorem c6_failed_sections_skipped_others_merged_witness :
    run_sow_sections c6_sample_provider 0 empty_sow_document
        (default_sections.take MAX_SECTIONS)
        = Except.ok (sowMergeLoop c6_sample_provider 0 empty_sow_document
            (default_sections.take MAX_SECTIONS).length) ∧
    (∀ k, (∀ i, i < (default_sections.take MAX_SECTIONS).length →
        payloadHasKey (section_payload c6_sample_provider i) k = false) →
      sow_doc_get (sowMergeLoop c6_sample_provider 0 empty_sow_document
          (default_sections.take MAX_SECTIONS).length) k
        = sow_doc_get empty_sow_document k) ∧
    (∀ i k v, i < (default_sections.take MAX_SECTIONS).length →
      payloadGetLast (section_payload c6_sample_provider i) k = some v →
      (sow_doc_get empty_sow_document k).isSome = true →
      (∀ j, i < j → j < (default_sections.take MAX_SECTIONS).length →
        payloadHasKey (section_payload c6_sample_provider j) k = false) →
      sow_doc_get (sowMergeLoop c6_sample_provider 0 empty_sow_document
          (default_sections.take MAX_SECTIONS).length) k
        = some v) ∧
    ((∀ i, i < (default_sections.take MAX_SECTIONS).length →
        ∀ kv ∈ payloadFields (section_payload c6_sample_provider i),
          sow_field_valid kv.1 kv.2 = true) →
      sow_schema_valid (sowMergeLoop c6_sample_provider 0 empty_sow_document
          (default_sections.take MAX_SECTIONS).length)
        = true) :=
  c6_failed_sections_skipped_others_merged (default_sections.take MAX_SECTIONS)
    c6_sample_provider
    (by
      intro i hi
      constructor <;>
        · simp only [c6_sample_provider]
          cases h : (i == 8 || i == 9) <;> simp [GenResult.isOk, h])

/-- C10: the planned section list is always capped at `MAX_SECTIONS = 10`;
the fixed default ordering has 16 names, and on the default fallback the
plan is exactly its first ten names, so — when the provider responds and
the processed payloads only write keys of the first ten sections — the loop
runs exactly ten merges and the keys of the six sections past the tenth
keep their skeleton defaults. -/
theorem c10_sections_truncated_to_ten (p : SowProvider)
    (hok : ∀ i, i < MAX_SECTIONS →
      (p.sectionCall i 0).isOk = true ∧ (p.sectionCall i 1).isOk = true)
    (hkeys : ∀ i, i < MAX_SECTIONS → ∀ k,
      payloadHasKey (section_payload p i) k = true →
      k ∈ default_sections.take MAX_SECTIONS) :
    (∀ d, (capped_sections d).length ≤ MAX_SECTIONS) ∧
    default_sections.length = 16 ∧
    capped_sections (JsonValue.obj []) = default_sections.take MAX_SECTIONS ∧
    run_sow_sections p 0 empty_sow_document (capped_sections (JsonValue.obj []))
      = Except.ok (sowMergeLoop p 0 empty_sow_document MAX_SECTIONS) ∧
    (∀ k, k ∈ default_sections.drop MAX_SECTIONS →
      sow_doc_get (sowMergeLoop p 0 empty_sow_document MAX_SECTIONS) k
        = sow_doc_get empty_sow_document k) := by
  refine ⟨?_, rfl, rfl, ?_, ?_⟩
  · intro d
    unfold capped_sections
    by_cases h : (sections_from_index d).length > MAX_SECTIONS
    · simp only [h, if_true, List.length_take]
      exact min_le_left _ _
    · simp only [h, if_false]
      omega
  · have hlen : (capped_sections (JsonValue.obj [])).length = MAX_SECTIONS := rfl
    rw [run_sow_sections_eq_mergeLoop p (capped_sections (JsonValue.obj [])) 0
      empty_sow_document (fun i hi => by
        rw [Nat.zero_add]
        exact hok i (by rw [← hlen]; exact hi)), hlen]
  · intro k hk
    refine sowMergeLoop_get_untouched p MAX_SECTIONS 0 empty_sow_document k ?_
    intro i hi
    rw [Nat.zero_add]
    cases hpk : payloadHasKey (section_payload p i) k with
    | false => rfl
    | true =>
      exfalso
      have hmem := hkeys i hi k hpk
      fin_cases hk <;> exact absurd hmem (by decide)

/-- C10 witness: the truncation facts at the all-garbage provider (every
payload parses to nothing, so no key constraint binds). -/
theorem c10_sections_truncated_to_ten_witness :
    (∀ d, (capped_sections d).length ≤ MAX_SECTIONS) ∧
    default_sections.length = 16 ∧
    capped_sections (JsonValue.obj []) = default_sections.take MAX_SECTIONS ∧
    run_sow_sections garbage_sow_provider 0 empty_sow_document
        (capped_sections (JsonValue.obj []))
      = Except.ok (sowMergeLoop garbage_sow_provider 0 empty_sow_document MAX_SECTIONS) ∧
    (∀ k, k ∈ default_sections.drop MAX_SECTIONS →
      sow_doc_get (sowMergeLoop garbage_sow_provider 0 empty_sow_document MAX_SECTIONS) k
        = sow_doc_get empty_sow_document k) :=
  c10_sections_truncated_to_ten garbage_sow_provider
    (fun _ _ => ⟨rfl, rfl⟩)
    (fun i _ k hpk => by
      rw [show section_payload garbage_sow_provider i = none from rfl] at hpk
      simp [payloadHasKey, payloadFields] at hpk)

/-! ## Estimation stage driver (`estimation_service.py`)

`generate_estimation` builds a query, retrieves context (with the
compatible two-parameter call), issues one provider call, and on a parse
failure issues exactly one correction call; a second parse failure raises
`ValueError("LLM returned invalid JSON")`.  The retrieval outcome is a
parameter; the second component of the result counts provider calls. -/

def generate_estimation_model (requirements : List (String × JsonValue))
    (retrieval : Except PyError (List ProjectMatch)) (p : Nat → GenResult) :
    Except PyError JsonValue × Nat :=
  if requirements.isEmpty then
    (Except.error (PyError.valueError "structured_requirements must be provided"), 0)
  else
    match retrieval with
    | Except.error e => (Except.error e, 0)
    | Except.ok _ =>
      match p 0 with
      | GenResult.raises m => (Except.error (PyError.runtimeError m), 1)
      | GenResult.ok resp =>
        match safe_parse_json resp with
        | some parsed => (Except.ok parsed, 1)
        | none =>
          match p 1 with
          | GenResult.raises m => (Except.error (PyError.runtimeError m), 2)
          | GenResult.ok resp2 =>
            match safe_parse_json resp2 with
            | none =>
              (Except.error (PyError.valueError "LLM returned invalid JSON"), 2)
            | some parsed => (Except.ok parsed, 2)

/-- C7: when the first estimation response does not parse, exactly one
correction call is issued (two provider calls in total); if the second
response does not parse either, the stage fails with the distinguishable
invalid-model-output `ValueError`, never a silent empty result; if the
second response parses, its object is returned. -/
theorem c7_estimation_one_correction_then_error
    (requirements : List (String × JsonValue)) (retrieved : List ProjectMatch)
    (p : Nat → GenResult) (r0 r1 : String)
    (hreq : requirements ≠ [])
    (h0 : p 0 = GenResult.ok r0) (hp0 : safe_parse_json r0 = none)
    (h1 : p 1 = GenResult.ok r1) :
    (generate_estimation_model requirements (Except.ok retrieved) p).2 = 2 ∧
    (safe_parse_json r1 = none →
      (generate_estimation_model requirements (Except.ok retrieved) p).1
        = Except.error (PyError.valueError "LLM returned invalid JSON")) ∧
    (∀ v, safe_parse_json r1 = some v →
      (generate_estimation_model requirements (Except.ok retrieved) p).1
        = Except.ok v) := by
  have hne : requirements.isEmpty = false := by
    cases requirements with
    | nil => exact absurd rfl hreq
    | cons a l => rfl
  refine ⟨?_, ?_, ?_⟩
  · unfold generate_estimation_model
    rw [hne]
    simp only [Bool.false_eq_true, if_false, h0, hp0, h1]
    cases safe_parse_json r1 <;> rfl
  · intro hp1
    unfold generate_estimation_model
    rw [hne]
    simp only [Bool.false_eq_true, if_false, h0, hp0, h1, hp1]
  · intro v hp1
    unfold generate_estimation_model
    rw [hne]
    simp only [Bool.false_eq_true, if_false, h0, hp0, h1, hp1]

/-- C7 witness: the correction-then-error path at a concrete requirements
object and a provider that always answers with unparseable text. -/
theorem c7_estimation_one_correction_then_error_witness :
    (generate_estimation_model [("functional_requirements", JsonValue.arr [])]
        (Except.ok []) (fun _ => GenResult.ok "garbage")).2 = 2 ∧
    (safe_parse_json "garbage" = none →
      (generate_estimation_model [("functional_requirements", JsonValue.arr [])]
          (Except.ok []) (fun _ => GenResult.ok "garbage")).1
        = Except.error (PyError.valueError "LLM returned invalid JSON")) ∧
    (∀ v, safe_parse_json "garbage" = some v →
      (generate_estimation_model [("functional_requirements", JsonValue.arr [])]
          (Except.ok []) (fun _ => GenResult.ok "garbage")).1
        = Except.ok v) :=
  c7_estimation_one_correction_then_error
    [("functional_requirements", JsonValue.arr [])] [] (fun _ => GenResult.ok "garbage")
    "garbage" "garbage" (by simp) rfl rfl rfl

/-! ## Requirements extraction (`extraction_service.py`)

`extract_requirements` cleans the RFP text, splits it into
heading-delimited sections, runs one extraction call (with one corrective
retry) per section, merges the five requirement categories into an
aggregate, and finishes with one refinement call — whose parsed response
is returned as-is, with no shape validation. -/

/-- Python `str.splitlines()` for `\n`-separated text (the separator the
cleaning pass itself produces). -/
def splitOnNl : List Char → List (List Char)
  | [] => []
  | c :: rest =>
    if c = '\n' then [] :: splitOnNl rest
    else
      match splitOnNl rest with
      | [] => [[c]]
      | l :: ls => (c :: l) :: ls

/-- `"\n".join(...)`. -/
def joinNl : List (List Char) → List Char
  | [] => []
  | [l] => l
  | l :: l2 :: ls => l ++ '\n' :: joinNl (l2 :: ls)

/-- `_clean_text` (line 40–41): strip every line, keep the non-empty ones,
rejoin with newlines. -/
def clean_text (text : String) : String :=
  String.mk (joinNl (((splitOnNl text.data).map (pyStripWhile pyIsSpace)).filter
    (fun l => !l.isEmpty)))

/-- The `[A-Z][A-Z0-9\s\-\/]{3,}$` tail of `_HEADING_REGEX`. -/
def isHeadingBody (cs : List Char) : Bool :=
  match cs with
  | [] => false
  | c :: rest =>
    ('A' ≤ c && c ≤ 'Z') && rest.length ≥ 3 &&
      rest.all (fun d =>
        ('A' ≤ d && d ≤ 'Z') || d.isDigit || pyIsSpace d || d == '-' || d == '/')

/-- Consume `(\.\d+)*` greedily. -/
def consumeDotDigitGroups : Nat → List Char → List Char
  | 0, cs => cs
  | fuel + 1, cs =>
    match cs with
    | c :: rest =>
      if c = '.' then
        let ds := rest.takeWhile Char.isDigit
        if ds.isEmpty then cs
        else consumeDotDigitGroups fuel (rest.drop ds.length)
      else cs
    | [] => []

/-- The optional numbered heading lead-in `(?:(?:\d+)(?:\.\d+)*\.?\s+)?`: on success
return what follows it (the greedy reading coincides with the regex on all
inputs, since a shorter group reading always fails at the following
`\.?\s+`). -/
def headingAfterNumber (cs : List Char) : Option (List Char) :=
  let ds := cs.takeWhile Char.isDigit
  if ds.isEmpty then none
  else
    let rest := consumeDotDigitGroups cs.length (cs.drop ds.length)
    let rest2 :=
      match rest with
      | c :: r => if c = '.' then r else rest
      | [] => []
    let ws := rest2.takeWhile pyIsSpace
    if ws.isEmpty then none else some (rest2.drop ws.length)

/-- `_HEADING_REGEX.match(line.strip())` as a boolean. -/
def heading_match (line : List Char) : Bool :=
  isHeadingBody line ||
    (match headingAfterNumber line with
     | some rest => isHeadingBody rest
     | none => false)

/-- The fold of `_split_into_sections` (lines 44–61): raw lines are
accumulated (newest first) and flushed, joined and stripped, at each
heading or at the end. -/
def splitSectionsAux : List (List Char) → String → List (List Char) →
    List (String × String)
  | [], title, cur =>
    if cur.isEmpty then []
    else [(title, String.mk (pyStripWhile pyIsSpace (joinNl cur.reverse)))]
  | line :: rest, title, cur =>
    let stripped := pyStripWhile pyIsSpace line
    if heading_match stripped then
      (if cur.isEmpty then []
       else [(title, String.mk (pyStripWhile pyIsSpace (joinNl cur.reverse)))])
        ++ splitSectionsAux rest (String.mk stripped) []
    else splitSectionsAux rest title (line :: cur)

/-- `_split_into_sections`. -/
def split_into_sections (text : String) : List (String × String) :=
  splitSectionsAux (splitOnNl text.data) "Introduction" []

/-- `_init_requirements` (lines 109–116). -/
def init_requirements : JsonValue :=
  JsonValue.obj
    [("functional_requirements", JsonValue.arr []),
     ("non_functional_requirements", JsonValue.arr []),
     ("constraints", JsonValue.arr []),
     ("compliance_items", JsonValue.arr []),
     ("assumptions", JsonValue.arr [])]

/-- Python truthiness of a parsed JSON value (`if value`). -/
def jsonTruthy : JsonValue → Bool
  | JsonValue.null => false
  | JsonValue.bool b => b
  | JsonValue.num q => decide (q ≠ 0)
  | JsonValue.str s => !s.data.isEmpty
  | JsonValue.arr xs => !xs.isEmpty
  | JsonValue.obj fs => !fs.isEmpty

/-- `_merge_requirements` (lines 119–123): for each key of the aggregate, extend its list with the stringified truthy entries of the list in the section
payload under the same key (non-list payload values are skipped;
the aggregate values are lists by construction from
`_init_requirements`). -/
def merge_requirements (target : JsonValue) (section_data : JsonValue) : JsonValue :=
  match target with
  | JsonValue.obj tfs =>
    JsonValue.obj (tfs.map (fun kv =>
      match kv.2 with
      | JsonValue.arr cur =>
        (kv.1, JsonValue.arr (cur ++
          (match section_data with
           | JsonValue.obj sfs =>
             match jsonGet sfs kv.1 with
             | some (JsonValue.arr vs) =>
               (vs.filter jsonTruthy).map (fun v => JsonValue.str (jsonToPyStr v))
             | _ => []
           | _ => [])))
      | _ => kv))
  | _ => target

/-- `_invoke_with_retry` (lines 64–81): one call, one corrective retry,
then `ValueError`; the call index is threaded through. -/
def invoke_with_retry (p : Nat → GenResult) (idx : Nat) :
    Except PyError (JsonValue × Nat) :=
  match p idx with
  | GenResult.raises m => Except.error (PyError.runtimeError m)
  | GenResult.ok r =>
    match safe_parse_json r with
    | some parsed => Except.ok (parsed, idx + 1)
    | none =>
      match p (idx + 1) with
      | GenResult.raises m => Except.error (PyError.runtimeError m)
      | GenResult.ok r2 =>
        match safe_parse_json r2 with
        | some parsed => Except.ok (parsed, idx + 2)
        | none =>
          Except.error (PyError.valueError "LLM returned invalid JSON after retry")

/-- The per-section extraction loop (lines 28–32). -/
def run_extraction_calls (p : Nat → GenResult) :
    Nat → JsonValue → List (String × String) → Except PyError (JsonValue × Nat)
  | idx, agg, [] => Except.ok (agg, idx)
  | idx, agg, _ :: rest =>
    match invoke_with_retry p idx with
    | Except.error e => Except.error e
    | Except.ok (section_data, idx2) =>
      run_extraction_calls p idx2 (merge_requirements agg section_data) rest

/-- `extract_requirements` (lines 16–37): guard, clean, split, per-section
extraction into the aggregate, then one refinement call whose parsed
response is returned directly. -/
def extract_requirements_model (rfp_text : String) (p : Nat → GenResult) :
    Except PyError JsonValue :=
  if pyFalsyStr rfp_text || pyFalsyStr (pyStrip rfp_text) then
    Except.error (PyError.valueError "rfp_text must be a non-empty string")
  else
    let clean := clean_text rfp_text
    let sections0 := split_into_sections clean
    let sections := if sections0.isEmpty then [("RFP", clean)] else sections0
    match run_extraction_calls p 0 init_requirements sections with
    | Except.error e => Except.error e
    | Except.ok (_, idx) =>
      match invoke_with_retry p idx with
      | Except.error e => Except.error e
      | Except.ok (refined, _) => Except.ok refined

/-- The five fixed keys of a Structured Requirements mapping. -/
def five_requirement_keys : List String :=
  ["functional_requirements", "non_functional_requirements", "constraints",
   "compliance_items", "assumptions"]

/-- Does a value carry all five fixed keys? -/
def has_five_requirement_keys (v : JsonValue) : Bool :=
  match v with
  | JsonValue.obj fs => objHasAll fs five_requirement_keys
  | _ => false

/-- Exactly the five fixed keys, each bound to a list of plain strings. -/
def five_key_string_shape (v : JsonValue) : Bool :=
  match v with
  | JsonValue.obj fs =>
    decide (fs.map Prod.fst = five_requirement_keys) &&
    fs.all (fun kv =>
      match kv.2 with
      | JsonValue.arr xs => xs.all jsonIsStr
      | _ => false)
  | _ => false

/-- A refinement provider that always returns `{"x": 1}`. -/
def const_x_provider : Nat → GenResult := fun _ => GenResult.ok "\x7b\"x\": 1\x7d"

/-- C9 counterexample: on the RFP text `"hello"` with a model that answers
every call with `{"x": 1}`, `extract_requirements` returns successfully,
yet the returned mapping carries none of the five fixed keys — the
refinement response is passed through unvalidated. -/
theorem c9_refinement_output_unvalidated_counterexample :
    extract_requirements_model "hello" const_x_provider
        = Except.ok (JsonValue.obj [("x", JsonValue.num 1)]) ∧
    has_five_requirement_keys (JsonValue.obj [("x", JsonValue.num 1)]) = false :=
  ⟨rfl, rfl⟩

/-- Merging any section payload into a well-shaped aggregate preserves the
five-key all-strings shape. -/
theorem merge_requirements_shape {agg : JsonValue} (d : JsonValue)
    (h : five_key_string_shape agg = true) :
    five_key_string_shape (merge_requirements agg d) = true := by
  cases agg with
  | obj tfs =>
    simp only [five_key_string_shape, Bool.and_eq_true, decide_eq_true_eq] at h
    obtain ⟨hkeys, hvals⟩ := h
    simp only [merge_requirements, five_key_string_shape, Bool.and_eq_true,
      decide_eq_true_eq]
    constructor
    · rw [List.map_map]
      rw [show ((fun kv : String × JsonValue => kv.1) ∘ (fun kv =>
          match kv.2 with
          | JsonValue.arr cur =>
            (kv.1, JsonValue.arr (cur ++
              (match d with
               | JsonValue.obj sfs =>
                 match jsonGet sfs kv.1 with
                 | some (JsonValue.arr vs) =>
                   (vs.filter jsonTruthy).map (fun v => JsonValue.str (jsonToPyStr v))
                 | _ => []
               | _ => [])))
          | _ => kv)) = fun kv : String × JsonValue => kv.1 from ?_]
      · exact hkeys
      · funext kv
        obtain ⟨k, v⟩ := kv
        cases v <;> rfl
    · rw [List.all_eq_true]
      intro kv2 hkv2
      obtain ⟨kv, hkv, rfl⟩ := List.mem_map.mp hkv2
      have hv := (List.all_eq_true.mp hvals) kv hkv
      obtain ⟨k, v⟩ := kv
      cases v with
      | arr xs =>
        simp only at hv ⊢
        rw [List.all_append, Bool.and_eq_true]
        refine ⟨hv, ?_⟩
        cases d with
        | obj sfs =>
          cases hget : jsonGet sfs k with
          | some w =>
            cases w with
            | arr vs =>
              simp only [hget]
              rw [List.all_eq_true]
              intro x hx
              obtain ⟨y, _, rfl⟩ := List.mem_map.mp hx
              rfl
            | null => simp [hget]
            | bool b => simp [hget]
            | num q => simp [hget]
            | str s => simp [hget]
            | obj fs3 => simp [hget]
          | none => simp [hget]
        | null => rfl
        | bool b => rfl
        | num q => rfl
        | str s => rfl
        | arr ys => rfl
      | null => simp at hv
      | bool b => simp at hv
      | num q => simp at hv
      | str s => simp at hv
      | obj fs2 => simp at hv
  | null => simp [five_key_string_shape] at h
  | bool b => simp [five_key_string_shape] at h
  | num q => simp [five_key_string_shape] at h
  | str s => simp [five_key_string_shape] at h
  | arr xs => simp [five_key_string_shape] at h

/-- A returned `invoke_with_retry` object is the parse of one of the
provider responses. -/
theorem invoke_with_retry_ok {p : Nat → GenResult} {idx : Nat}
    {refined : JsonValue} {idx2 : Nat}
    (h : invoke_with_retry p idx = Except.ok (refined, idx2)) :
    ∃ i r, p i = GenResult.ok r ∧ safe_parse_json r = some refined := by
  unfold invoke_with_retry at h
  cases h0 : p idx with
  | raises m => rw [h0] at h; simp at h
  | ok r =>
    simp only [h0] at h
    cases hp : safe_parse_json r with
    | some parsed =>
      rw [hp] at h
      simp only [Except.ok.injEq, Prod.mk.injEq] at h
      exact ⟨idx, r, h0, by rw [hp, h.1]⟩
    | none =>
      rw [hp] at h
      cases h1 : p (idx + 1) with
      | raises m => rw [h1] at h; simp at h
      | ok r2 =>
        simp only [h1] at h
        cases hp2 : safe_parse_json r2 with
        | some parsed =>
          rw [hp2] at h
          simp only [Except.ok.injEq, Prod.mk.injEq] at h
          exact ⟨idx + 1, r2, h1, by rw [hp2, h.1]⟩
        | none => rw [hp2] at h; exact absurd h (by simp)

/-- C9 amended: the aggregate that the per-section merges build always has
the five fixed keys, each a list of plain strings; but the value
`extract_requirements` returns is exactly the parsed refinement response,
with no shape enforcement — the five-key invariant holds for the returned
mapping only if the refinement response happens to satisfy it (see the
counterexample). -/
theorem c9_aggregate_shaped_refinement_passthrough :
    (∀ ds : List JsonValue,
      five_key_string_shape (ds.foldl merge_requirements init_requirements) = true) ∧
    (∀ (rfp : String) (p : Nat → GenResult) (res : JsonValue),
      extract_requirements_model rfp p = Except.ok res →
      ∃ i r, p i = GenResult.ok r ∧ safe_parse_json r = some res) := by
  constructor
  · intro ds
    have hbase : five_key_string_shape init_requirements = true := rfl
    have hgen : ∀ (agg : JsonValue), five_key_string_shape agg = true →
        five_key_string_shape (ds.foldl merge_requirements agg) = true := by
      induction ds with
      | nil => intro agg h; exact h
      | cons d rest ih =>
        intro agg h
        exact ih (merge_requirements agg d) (merge_requirements_shape d h)
    exact hgen init_requirements hbase
  · intro rfp p res h
    unfold extract_requirements_model at h
    by_cases hg : (pyFalsyStr rfp || pyFalsyStr (pyStrip rfp)) = true
    · rw [if_pos hg] at h; exact absurd h (by simp)
    · rw [if_neg hg] at h
      simp only [] at h
      cases hrun : run_extraction_calls p 0 init_requirements
          (if (split_into_sections (clean_text rfp)).isEmpty
           then [("RFP", clean_text rfp)]
           else split_into_sections (clean_text rfp)) with
      | error e => rw [hrun] at h; exact absurd h (by simp)
      | ok pair =>
        obtain ⟨agg, idx⟩ := pair
        rw [hrun] at h
        simp only [] at h
        cases hinv : invoke_with_retry p idx with
        | error e => rw [hinv] at h; exact absurd h (by simp)
        | ok pair2 =>
          obtain ⟨refined, idx2⟩ := pair2
          rw [hinv] at h
          simp only [Except.ok.injEq] at h
          rw [h] at hinv
          exact invoke_with_retry_ok hinv

/-- The refinement response of the C9 witness. -/
def five_key_json_response : String :=
  "\x7b\"functional_requirements\": [], \"non_functional_requirements\": [], \"constraints\": [], \"compliance_items\": [], \"assumptions\": []\x7d"

/-- Its parsed value. -/
def five_key_parsed : JsonValue :=
  JsonValue.obj
    [("functional_requirements", JsonValue.arr []),
     ("non_functional_requirements", JsonValue.arr []),
     ("constraints", JsonValue.arr []),
     ("compliance_items", JsonValue.arr []),
     ("assumptions", JsonValue.arr [])]

/-- A provider that always answers with the five-key JSON. -/
def five_key_provider : Nat → GenResult := fun _ => GenResult.ok five_key_json_response

/-- C9 amended witness: the aggregate shape at one concrete merged payload,
and the pass-through at the concrete run on `"hello"` whose refinement
response is the five-key JSON. -/
theorem c9_aggregate_shaped_refinement_passthrough_witness :
    five_key_string_shape
        ([JsonValue.obj [("x", JsonValue.num 1)]].foldl merge_requirements
          init_requirements) = true ∧
    (∃ i r, five_key_provider i = GenResult.ok r ∧
      safe_parse_json r = some five_key_parsed) :=
  ⟨c9_aggregate_shaped_refinement_passthrough.1 [JsonValue.obj [("x", JsonValue.num 1)]],
   c9_aggregate_shaped_refinement_passthrough.2 "hello" five_key_provider
     five_key_parsed rfl⟩
